import Mathlib

/-!
Verification of the demand-processing repository (schema reconciliation and
metric aggregation engine).

This file shallowly embeds the Python source into Lean:

* text values are `List Char`; Python string operations (`strip`, `upper`,
  `unicodedata.normalize('NFKD', _)` followed by ASCII-fold) are modelled by
  executable functions over explicit character tables covering the character
  repertoire that the repository actually manipulates (ASCII plus the accented
  Latin letters of the Portuguese column names, rosters and status vocabulary,
  plus a few compatibility characters needed to exercise edge cases).  Outside
  those tables the model maps a character to itself; this is the standard
  partial-model reading of full Unicode.
* pandas data frames are modelled column-major (`data_processor.py` pipeline)
  or row-major (`data_service.py` / `demand_dashboard.py` aggregation), with
  `NaN` as `Option.none` and exceptions as `Option.none` results.
* metric dictionaries are a record of `Nat` counters.
-/

set_option autoImplicit false

abbrev Str := List Char

/-- Convenience conversion from a Lean string literal to the `List Char`
representation used throughout the model. -/
def lit (s : String) : Str := s.toList

/-- Uppercasing table: ASCII lowercase letters and the lowercase accented
Latin letters used by the sources, each mapped to its Python `str.upper`
image.  Characters outside the table are left unchanged. -/
def upperMap : List (Char × Char) :=
  [('a', 'A'), ('b', 'B'), ('c', 'C'), ('d', 'D'), ('e', 'E'), ('f', 'F'),
   ('g', 'G'), ('h', 'H'), ('i', 'I'), ('j', 'J'), ('k', 'K'), ('l', 'L'),
   ('m', 'M'), ('n', 'N'), ('o', 'O'), ('p', 'P'), ('q', 'Q'), ('r', 'R'),
   ('s', 'S'), ('t', 'T'), ('u', 'U'), ('v', 'V'), ('w', 'W'), ('x', 'X'),
   ('y', 'Y'), ('z', 'Z'),
   ('\u00E1', '\u00C1'), ('\u00E2', '\u00C2'), ('\u00E3', '\u00C3'),
   ('\u00E0', '\u00C0'), ('\u00E9', '\u00C9'), ('\u00EA', '\u00CA'),
   ('\u00ED', '\u00CD'), ('\u00F3', '\u00D3'), ('\u00F4', '\u00D4'),
   ('\u00F5', '\u00D5'), ('\u00FA', '\u00DA'), ('\u00E7', '\u00C7'),
   ('\u00FC', '\u00DC')]

/-- Model of Python `str.upper` on a single character. -/
def upperChar (c : Char) : Char :=
  match upperMap.lookup c with
  | some u => u
  | none => c

/-- Model of Python `str.upper`. -/
def upperStr (s : Str) : Str := s.map upperChar

/-- The whitespace characters recognised by Python `str.strip`
(restricted to those the model can meet; ` ` is the no-break space,
which Python treats as whitespace). -/
def isPyWhite (c : Char) : Bool :=
  c == ' ' || c == '\t' || c == '\n' || c == '\r' || c == '\x0b' ||
  c == '\x0c' || c == '\u00A0'

/-- Model of Python `str.strip`: drop leading and trailing whitespace. -/
def trimStr (s : Str) : Str :=
  ((s.dropWhile isPyWhite).reverse.dropWhile isPyWhite).reverse

/-- NFKD decomposition table for the characters the model covers: the
uppercase accented Latin letters decompose into a base letter followed by a
combining mark (U+0301 acute, U+0302 circumflex, U+0303 tilde, U+0300 grave,
U+0327 cedilla, U+0308 diaeresis), U+00A8 (the spacing diaeresis sign)
decomposes into a space followed by U+0308, U+00A0 (no-break space)
decomposes into an ordinary space, and the uncased compatibility letters
U+00AA (feminine ordinal), U+00BA (masculine ordinal) and U+2071
(superscript i) decompose into the lowercase ASCII letters `a`, `o` and
`i` per their `<super>` compatibility decompositions.  These entries agree
with the Unicode data used by `unicodedata.normalize('NFKD', _)`.
Characters outside the table decompose to themselves. -/
def decompTable : List (Char × Str) :=
  [('\u00C1', ['A', '\u0301']), ('\u00C2', ['A', '\u0302']),
   ('\u00C3', ['A', '\u0303']), ('\u00C0', ['A', '\u0300']),
   ('\u00C9', ['E', '\u0301']), ('\u00CA', ['E', '\u0302']),
   ('\u00CD', ['I', '\u0301']), ('\u00D3', ['O', '\u0301']),
   ('\u00D4', ['O', '\u0302']), ('\u00D5', ['O', '\u0303']),
   ('\u00DA', ['U', '\u0301']), ('\u00C7', ['C', '\u0327']),
   ('\u00DC', ['U', '\u0308']),
   ('\u00A8', [' ', '\u0308']), ('\u00A0', [' ']),
   ('\u00AA', ['a']), ('\u00BA', ['o']), ('\u2071', ['i'])]

/-- ASCII test matching Python `.encode('ASCII', 'ignore')`: code point
below 128. -/
def isAsciiChar (c : Char) : Bool := c.toNat < 128

/-- NFKD decomposition of one character (identity outside the table). -/
def charDecomp (c : Char) : Str :=
  match decompTable.lookup c with
  | some d => d
  | none => [c]

/-- Embedding of `DemandasProcessor.normalize_name` /
`DemandasAnalyzer.normalize_name` (src/process_demands_csv.py lines 50-57,
src/demandas_daily02.py lines 69-82) on a non-null value:
`unicodedata.normalize('NFKD', str(name).strip().upper())` followed by
`.encode('ASCII', 'ignore').decode('ASCII')`. -/
def normalizeName (s : Str) : Str :=
  (((trimStr s).map upperChar).flatMap charDecomp).filter isAsciiChar

/-- Decides whether `pat` occurs at the head of `s`. -/
def leadsWith : Str → Str → Bool
  | [], _ => true
  | _ :: _, [] => false
  | p :: ps, c :: cs => p == c && leadsWith ps cs

/-- Decides whether `pat` occurs as a contiguous substring of `s`
(the model of Python `in` on strings and of `.str.contains` with a
regex consisting of plain alternatives). -/
def hasSub (pat : Str) : Str → Bool
  | [] => leadsWith pat []
  | c :: cs => leadsWith pat (c :: cs) || hasSub pat cs

/-- Decides whether any of the patterns occurs as a substring of `s`. -/
def anySub (pats : List Str) (s : Str) : Bool :=
  pats.any (fun p => hasSub p s)

/-! ## Column resolution and team classification (src/dashboard/data_processor.py) -/

/-- Embedding of `DataProcessor.EXPECTED_COLUMNS`
(src/dashboard/data_processor.py lines 23-27): ordered candidate-pattern
lists per canonical field, in the dictionary's insertion order. -/
def EXPECTED_COLUMNS : List (Str × List Str) :=
  [(lit "resolucao",
    [lit "RESOLUCAO", lit "DATA", lit "DATA RESOLUCAO", lit "DT_RESOLUCAO",
     lit "RESOLU"]),
   (lit "responsavel",
    [lit "RESPONSAVEL", lit "RESP", lit "ATENDENTE", lit "ATEND",
     lit "RESPONS"]),
   (lit "situacao",
    [lit "SITUACAO", lit "STATUS", lit "SITU", lit "UNNAMED: 9", lit "  "])]

/-- The canonical field chosen for one raw column by
`DataProcessor.identify_columns` (src/dashboard/data_processor.py lines
117-126): the first canonical field one of whose candidate names occurs in
`str(col).upper().strip()`, or `none` when no field matches. -/
def colTarget (col : Str) : Option Str :=
  let colUpper := trimStr (upperStr col)
  (EXPECTED_COLUMNS.find? (fun tc =>
    tc.2.any (fun name => hasSub name colUpper))).map (fun tc => tc.1)

/-- Embedding of `DataProcessor.identify_columns`
(src/dashboard/data_processor.py lines 112-129): each raw column with a
matching canonical field is bound to it (`mapping[col] = target`); columns
matching no field are absent from the mapping. -/
def identifyColumns (columns : List Str) : List (Str × Str) :=
  columns.filterMap (fun col => (colTarget col).map (fun t => (col, t)))

/-- Embedding of `DataProcessor.TEAM_MAPPING`
(src/dashboard/data_processor.py lines 29-33). -/
def TEAM_MAPPING : List (Str × List Str) :=
  [(lit "JULIO", [lit "JULIO"]),
   (lit "LEANDRO", [lit "LEANDRO"]),
   (lit "ADRIANO", [lit "ADRIANO"])]

/-- The loop body of `DataProcessor._map_to_team`, parameterised by the
roster it iterates over: the first entry whose member list contains the
name wins, otherwise `'OUTROS'`. -/
def firstTeam (roster : List (Str × List Str)) (responsavel : Str) : Str :=
  match roster.find? (fun tm => tm.2.contains responsavel) with
  | some tm => tm.1
  | none => lit "OUTROS"

/-- Embedding of `DataProcessor._map_to_team`
(src/dashboard/data_processor.py lines 193-198). -/
def mapToTeam (responsavel : Str) : Str := firstTeam TEAM_MAPPING responsavel

/-! ## Team classification in src/process_demands_csv.py -/

/-- Embedding of `DemandasProcessor.equipe_julio` after the `__init__`
normalisation pass (src/process_demands_csv.py lines 27-31 and 41). -/
def equipeJulio : List Str :=
  [lit "ADRIANO", lit "ELISANGELA", lit "FELIPE", lit "IGOR",
   lit "ANA GESSICA", lit "ALINE", lit "NUNO", lit "THALISSON", lit "LUARA",
   lit "MATHEUS", lit "JULIANE", lit "POLIANA", lit "YURI",
   lit "ANA LÍDIA"].map normalizeName

/-- Embedding of `DemandasProcessor.equipe_leandro_adriano` after the
`__init__` normalisation pass (src/process_demands_csv.py lines 33-38
and 42). -/
def equipeLeandroAdriano : List Str :=
  [lit "ALINE SALVADOR", lit "AMANDA SANTANA", lit "BRUNO MARIANO",
   lit "EDIANE", lit "FABIANA", lit "GREICY", lit "ITAYNNARA", lit "IZABEL",
   lit "JULIANA", lit "JULIA", lit "KATIA", lit "MARIA BRUNA", lit "MONYZA",
   lit "SABRINA", lit "SOFIA", lit "VICTOR ADRIANO",
   lit "VITORIA"].map normalizeName

/-- Embedding of the inner `get_team` of
`DemandasProcessor.calculate_totals` (src/process_demands_csv.py lines
165-173).  A missing (`NaN`) responsible is `none` and yields
`"Sem Responsável"`; otherwise the name is normalised and looked up first in
`equipe_julio`, then in `equipe_leandro_adriano`, with fallback
`"Outros"`. -/
def getTeam (resp : Option Str) : Str :=
  match resp with
  | none => lit "Sem Responsável"
  | some r =>
    let n := normalizeName r
    if equipeJulio.contains n then lit "Equipe Júlio"
    else if equipeLeandroAdriano.contains n then lit "Equipe Leandro e Adriano"
    else lit "Outros"

/-! ## Date parsing -/

/-- Splits a character list at every occurrence of `sep`
(the model of Python `str.split`). -/
def splitOnChar (sep : Char) : Str → List Str
  | [] => [[]]
  | c :: rest =>
    match splitOnChar sep rest with
    | [] => if c == sep then [[], []] else [[c]]
    | h :: t => if c == sep then [] :: h :: t else (c :: h) :: t

/-- Decimal value of a digit string (valid only when all characters are
digits). -/
def digitsToNat (s : Str) : Nat :=
  s.foldl (fun n c => n * 10 + (c.toNat - 48)) 0

/-- Gregorian leap-year rule. -/
def isLeap (y : Nat) : Bool :=
  (y % 4 == 0 && y % 100 != 0) || y % 400 == 0

/-- Number of days in a month. -/
def daysInMonth (m y : Nat) : Nat :=
  if m == 2 then (if isLeap y then 29 else 28)
  else if m == 4 || m == 6 || m == 9 || m == 11 then 30
  else 31

/-- Embedding of `pd.to_datetime(_, format='%d/%m/%Y', errors='coerce')`
applied to one cell (src/dashboard/data_processor.py line 154): the text
must consist of a one-or-two-digit day, a one-or-two-digit month and a
four-digit year separated by `/`, and denote a calendar-valid date;
otherwise the result is `NaT` (`none`).  A parsed date is encoded as the
number `y * 10000 + m * 100 + d`, which respects chronological order. -/
def parseDMY (s : Str) : Option Nat :=
  match splitOnChar '/' s with
  | [ds, ms, ys] =>
    if ds.all (fun c => c.isDigit) && ms.all (fun c => c.isDigit) &&
       ys.all (fun c => c.isDigit) &&
       decide (1 ≤ ds.length) && decide (ds.length ≤ 2) &&
       decide (1 ≤ ms.length) && decide (ms.length ≤ 2) &&
       decide (ys.length = 4) then
      let d := digitsToNat ds
      let m := digitsToNat ms
      let y := digitsToNat ys
      if 1 ≤ m && m ≤ 12 && 1 ≤ d && d ≤ daysInMonth m y then
        some (y * 10000 + m * 100 + d)
      else none
    else none
  | _ => none

/-! ## Metric counters -/

/-- The counter fields shared by `DataService.get_daily_metrics`
(src/api/app/services/data_service.py lines 103-118) and
`calculate_daily_metrics` (src/scripts/demand_dashboard.py lines 258-271).
The `date`/`team` echo fields of the Python dictionaries are not counters
and are omitted. -/
@[ext] structure Metrics where
  resolvidos : Nat
  pendenteAtivo : Nat
  pendenteReceptivo : Nat
  prioridade : Nat
  prioridadeTotal : Nat
  somaPrioridades : Nat
  analise : Nat
  analiseDia : Nat
  receptivo : Nat
  quitadoCliente : Nat
  quitado : Nat
  aprovados : Nat
  deriving Repr, DecidableEq

/-- The all-zero counter dictionary both implementations start from. -/
def Metrics.zero : Metrics := ⟨0, 0, 0, 0, 0, 0, 0, 0, 0, 0, 0, 0⟩

/-- Pointwise addition of counter dictionaries (the `+=` accumulation). -/
def Metrics.add (a b : Metrics) : Metrics :=
  ⟨a.resolvidos + b.resolvidos, a.pendenteAtivo + b.pendenteAtivo,
   a.pendenteReceptivo + b.pendenteReceptivo, a.prioridade + b.prioridade,
   a.prioridadeTotal + b.prioridadeTotal,
   a.somaPrioridades + b.somaPrioridades, a.analise + b.analise,
   a.analiseDia + b.analiseDia, a.receptivo + b.receptivo,
   a.quitadoCliente + b.quitadoCliente, a.quitado + b.quitado,
   a.aprovados + b.aprovados⟩

/-- Sum of a list of counter dictionaries. -/
def msum (l : List Metrics) : Metrics := l.foldr Metrics.add Metrics.zero

/-! ## Row/sheet model for the aggregation services
(src/api/app/services/data_service.py, src/scripts/demand_dashboard.py) -/

/-- One cell of a loaded sheet: either text (the value seen through
`astype(str)`, with a missing text cell modelled as the empty, never
keyword-matching string) or a datetime cell (`none` is `NaT`). -/
inductive Cell where
  | txt (s : Str)
  | dt (d : Option Nat)
  deriving Repr, DecidableEq

/-- One row, as an association from column name to cell. -/
abbrev Row := List (Str × Cell)

/-- One loaded sheet: the column names with their pandas dtype flag
(`true` means `is_datetime64_any_dtype`), and the rows. -/
structure Sheet where
  cols : List (Str × Bool)
  rows : List Row

/-- Text value of a named cell; a missing or datetime-typed cell yields the
empty string, which matches no keyword and no team name the services
compare against. -/
def rowTxt (r : Row) (c : Str) : Str :=
  match r.lookup c with
  | some (Cell.txt s) => s
  | _ => []

/-- Datetime value of a named cell (`none` for `NaT`, a missing cell, or a
non-datetime cell). -/
def rowDate (r : Row) (c : Str) : Option Nat :=
  match r.lookup c with
  | some (Cell.dt d) => d
  | _ => none

/-- Whether the sheet has a column of the given name. -/
def hasCol (cols : List (Str × Bool)) (name : Str) : Bool :=
  cols.any (fun p => p.1 == name)

/-- Whether the named column exists and has datetime dtype
(`col in df.columns and pd.api.types.is_datetime64_any_dtype(df[col])`). -/
def colIsDt (cols : List (Str × Bool)) (name : Str) : Bool :=
  match cols.find? (fun p => p.1 == name) with
  | some p => p.2
  | none => false

/-- Embedding of
`next((col for col in df.columns if 'EQUIPE' in col.upper()), None)`
(src/api/app/services/data_service.py line 129,
src/scripts/demand_dashboard.py line 288). -/
def findEquipeCol (cols : List (Str × Bool)) : Option Str :=
  (cols.find? (fun p => hasSub (lit "EQUIPE") (upperStr p.1))).map
    (fun p => p.1)

/-- The candidate names tried by `get_situacao_column`
(src/api/app/services/data_service.py line 94,
src/scripts/demand_dashboard.py line 247). -/
def SITUACAO_CANDIDATES : List Str :=
  [lit "SITUACAO", lit "SITUAÇÃO", lit "STATUS", lit "ESTADO"]

/-- Embedding of `get_situacao_column`: the first candidate that is a
column of the frame. -/
def getSituacaoColumn (cols : List (Str × Bool)) : Option Str :=
  SITUACAO_CANDIDATES.find? (fun c => hasCol cols c)

/-- Python truthiness of the `team` argument: `None` and the empty string
both disable the team filter (`if team:`). -/
def teamArg (team : Option Str) : Option Str :=
  match team with
  | some [] => none
  | t => t

/-- The keyword patterns of the status classifier, from the regexes
`'RESOLVID|FINALIZADO|CONCLUÍDO'`, `'ANALIS|ANÁLISE'`, `'QUITAD'`,
`'APROVAD'`, `'PENDENT'` shared by both services. -/
def RESOLVED_PATS : List Str :=
  [lit "RESOLVID", lit "FINALIZADO", lit "CONCLUÍDO"]

/-- Patterns of the in-analysis category. -/
def ANALISE_PATS : List Str := [lit "ANALIS", lit "ANÁLISE"]

/-- Patterns of the settled category. -/
def QUITADO_PATS : List Str := [lit "QUITAD"]

/-- Patterns of the approved category. -/
def APROVADO_PATS : List Str := [lit "APROVAD"]

/-- Patterns of the pending category. -/
def PENDENTE_PATS : List Str := [lit "PENDENT"]

/-- Name of the active/inbound channel column. -/
def ATIVO_RECEPTIVO : Str := lit "ATIVO/RECEPTIVO"

/-! ### DataService.get_daily_metrics
(src/api/app/services/data_service.py lines 100-183) -/

/-- The date columns `['DATA', 'RESOLUCAO', 'Data']` of the service. -/
def dsDateCols : List Str := [lit "DATA", lit "RESOLUCAO", lit "Data"]

/-- The date filter of `get_daily_metrics`: the row matches if any present
datetime-typed date column equals the queried date
(src/api/app/services/data_service.py lines 139-146). -/
def dsDateMask (cols : List (Str × Bool)) (d : Nat) (r : Row) : Bool :=
  dsDateCols.any (fun n => colIsDt cols n && rowDate r n == some d)

/-- The team filter of `get_daily_metrics`
(src/api/app/services/data_service.py lines 128-131): applied only when a
team was requested and an `EQUIPE`-like column exists; comparison is on
upper-cased text. -/
def dsTeamRows (s : Sheet) (team : Option Str) : List Row :=
  match teamArg team, findEquipeCol s.cols with
  | some t, some ec =>
    s.rows.filter (fun r => upperStr (rowTxt r ec) == upperStr t)
  | _, _ => s.rows

/-- The rows of one sheet that survive the team filter and the date filter
(the service's `df_date`). -/
def dsMatchedRows (s : Sheet) (d : Nat) (team : Option Str) : List Row :=
  (dsTeamRows s team).filter (dsDateMask s.cols d)

/-- The counter increments of `get_daily_metrics` for one sheet, given the
resolved situation column and the filtered rows
(src/api/app/services/data_service.py lines 151-177).  Priority and
`analise_dia`/`quitado_cliente` counters are never incremented by the
service and stay zero. -/
def dsCounts (cols : List (Str × Bool)) (sc : Str) (rows : List Row) :
    Metrics :=
  let situ := fun r => upperStr (rowTxt r sc)
  let hasAR := hasCol cols ATIVO_RECEPTIVO
  let ar := fun r => upperStr (rowTxt r ATIVO_RECEPTIVO)
  { resolvidos := rows.countP (fun r => anySub RESOLVED_PATS (situ r))
    analise := rows.countP (fun r => anySub ANALISE_PATS (situ r))
    quitado := rows.countP (fun r => anySub QUITADO_PATS (situ r))
    aprovados := rows.countP (fun r => anySub APROVADO_PATS (situ r))
    pendenteAtivo :=
      if hasAR then
        rows.countP (fun r =>
          anySub PENDENTE_PATS (situ r) && hasSub (lit "ATIVO") (ar r))
      else 0
    pendenteReceptivo :=
      if hasAR then
        rows.countP (fun r =>
          anySub PENDENTE_PATS (situ r) && hasSub (lit "RECEPTIVO") (ar r))
      else 0
    receptivo :=
      if hasAR then rows.countP (fun r => hasSub (lit "RECEPTIVO") (ar r))
      else 0
    prioridade := 0
    prioridadeTotal := 0
    somaPrioridades := 0
    analiseDia := 0
    quitadoCliente := 0 }

/-- Contribution of one sheet to `DataService.get_daily_metrics`: empty
frames are skipped, a sheet without situation column is skipped, an empty
filtered frame is skipped, and otherwise the counters are incremented. -/
def dsSheetMetrics (s : Sheet) (d : Nat) (team : Option Str) : Metrics :=
  if s.rows.isEmpty then Metrics.zero
  else
    match getSituacaoColumn s.cols with
    | none => Metrics.zero
    | some sc =>
      let dfDate := dsMatchedRows s d team
      if dfDate.isEmpty then Metrics.zero else dsCounts s.cols sc dfDate

/-- Embedding of `DataService.get_daily_metrics`
(src/api/app/services/data_service.py lines 100-183): the zero-initialised
counters accumulated over all loaded sheets. -/
def dsGetDailyMetrics (sheets : List Sheet) (d : Nat) (team : Option Str) :
    Metrics :=
  msum (sheets.map (fun s => dsSheetMetrics s d team))

/-! ### DataService.get_date_range
(src/api/app/services/data_service.py lines 206-230) -/

/-- Encoding of `datetime.max` (9999-12-31) in the date encoding. -/
def DTMAX : Nat := 99991231

/-- Minimum of a column, skipping nulls, as `Series.min` does (`none` when
every value is null). -/
def dsColMin (l : List (Option Nat)) : Option Nat :=
  l.foldr
    (fun o acc =>
      match o, acc with
      | some v, some w => some (min v w)
      | some v, none => some v
      | none, a => a)
    none

/-- Maximum of a column, skipping nulls (`none` when every value is
null). -/
def dsColMax (l : List (Option Nat)) : Option Nat :=
  l.foldr
    (fun o acc =>
      match o, acc with
      | some v, some w => some (max v w)
      | some v, none => some v
      | none, a => a)
    none

/-- One iteration of the inner loop of `get_date_range`: if the named
column exists with datetime dtype, compare its min/max against the running
pair, updating on strict improvement (`pd.notna(col_min) and
col_min < min_date`, resp. `col_max > max_date`). -/
def drStep (cols : List (Str × Bool)) (rows : List Row) (mm : Nat × Nat)
    (name : Str) : Nat × Nat :=
  if colIsDt cols name then
    let colv := rows.map (fun r => rowDate r name)
    let m1 := match dsColMin colv with
      | some v => if v < mm.1 then v else mm.1
      | none => mm.1
    let m2 := match dsColMax colv with
      | some v => if mm.2 < v then v else mm.2
      | none => mm.2
    (m1, m2)
  else mm

/-- Embedding of `DataService.get_date_range`: the running minimum starts
at `datetime.max` and the running maximum at `datetime.min` (encoded `0`),
then every datetime date column of every sheet is folded in. -/
def getDateRange (sheets : List Sheet) : Nat × Nat :=
  sheets.foldl (fun mm s => dsDateCols.foldl (drStep s.cols s.rows) mm)
    (DTMAX, 0)

/-- The non-null dates of one named column when it exists with datetime
dtype (otherwise nothing: the column is skipped by `get_date_range`). -/
def colDatesOf (cols : List (Str × Bool)) (rows : List Row) (name : Str) :
    List Nat :=
  if colIsDt cols name then (rows.map (fun r => rowDate r name)).filterMap id
  else []

/-- All non-null dates appearing in any datetime date column of any loaded
sheet (the population `get_date_range` is specified against). -/
def collectDates (sheets : List Sheet) : List Nat :=
  sheets.flatMap (fun s =>
    dsDateCols.flatMap (fun n => colDatesOf s.cols s.rows n))

/-! ### calculate_daily_metrics
(src/scripts/demand_dashboard.py lines 253-362) -/

/-- The date columns of the dashboard version
(`['DATA', 'RESOLUCAO', 'Data', 'DATA CONCLUSÃO', 'DATA INÍCIO']`). -/
def ddDateCols : List Str :=
  [lit "DATA", lit "RESOLUCAO", lit "Data", lit "DATA CONCLUSÃO",
   lit "DATA INÍCIO"]

/-- The dashboard's date filter (src/scripts/demand_dashboard.py lines
296-302). -/
def ddDateMask (cols : List (Str × Bool)) (d : Nat) (r : Row) : Bool :=
  ddDateCols.any (fun n => colIsDt cols n && rowDate r n == some d)

/-- Splits a list into consecutive chunks of `n` elements (the last chunk
may be shorter), mirroring `df.iloc[start:start + chunk_size]` over
`range(0, len(df), chunk_size)`.  Only `n ≥ 1` corresponds to the Python
loop (`range` with step `0` raises). -/
def chunksOf {α : Type} (n : Nat) (l : List α) : List (List α) :=
  match l with
  | [] => []
  | a :: t => (a :: t.take (n - 1)) :: chunksOf n (t.drop (n - 1))
termination_by l.length
decreasing_by
  simp only [List.length_drop, List.length_cons]
  omega

/-- The per-chunk counter increments of `calculate_daily_metrics` once the
situation column is known (src/scripts/demand_dashboard.py lines 309-346).
The `Analise_Dia` update reads `df_date['DATA'].dt.date`; when the sheet
has no datetime `DATA` column that line raises (a `KeyError` or `.dt`
`AttributeError`), the inner `except` swallows the error after the earlier
counters were already incremented, so `Analise_Dia` receives nothing —
hence its guard on `colIsDt cols "DATA"`. -/
def ddCountsRec (cols : List (Str × Bool)) (d : Nat) (sc : Str)
    (dfDate : List Row) : Metrics :=
  let situ := fun r => trimStr (upperStr (rowTxt r sc))
  let hasAR := hasCol cols ATIVO_RECEPTIVO
  let ar := fun r => upperStr (rowTxt r ATIVO_RECEPTIVO)
  let dataOk := colIsDt cols (lit "DATA")
  { resolvidos := dfDate.countP (fun r => anySub RESOLVED_PATS (situ r))
    analise := dfDate.countP (fun r => anySub ANALISE_PATS (situ r))
    quitado := dfDate.countP (fun r => anySub QUITADO_PATS (situ r))
    aprovados := dfDate.countP (fun r => anySub APROVADO_PATS (situ r))
    pendenteAtivo :=
      if hasAR then
        dfDate.countP (fun r =>
          anySub PENDENTE_PATS (situ r) && hasSub (lit "ATIVO") (ar r))
      else 0
    pendenteReceptivo :=
      if hasAR then
        dfDate.countP (fun r =>
          anySub PENDENTE_PATS (situ r) && hasSub (lit "RECEPTIVO") (ar r))
      else 0
    receptivo :=
      if hasAR then
        dfDate.countP (fun r => hasSub (lit "RECEPTIVO") (ar r))
      else 0
    analiseDia :=
      if dataOk then
        dfDate.countP (fun r =>
          anySub ANALISE_PATS (situ r) && rowDate r (lit "DATA") == some d)
      else 0
    prioridade := 0
    prioridadeTotal := 0
    somaPrioridades := 0
    quitadoCliente := 0 }

/-- Contribution of one chunk to `calculate_daily_metrics`
(src/scripts/demand_dashboard.py lines 282-354): team filter, situation
column resolution, date filter, then keyword counting via `ddCountsRec`. -/
def ddChunkContrib (cols : List (Str × Bool)) (d : Nat)
    (selTeam : Option Str) (chunk : List Row) : Metrics :=
  let chunkT := match teamArg selTeam, findEquipeCol cols with
    | some t, some ec =>
      chunk.filter (fun r => upperStr (rowTxt r ec) == upperStr t)
    | _, _ => chunk
  let dfDate := chunkT.filter (ddDateMask cols d)
  if dfDate.isEmpty then Metrics.zero
  else
    match getSituacaoColumn cols with
    | none => Metrics.zero
    | some sc => ddCountsRec cols d sc dfDate

/-- Contribution of one sheet to `calculate_daily_metrics`: empty frames
are skipped, otherwise the rows are processed in chunks of `chunkSize`. -/
def ddSheetMetrics (s : Sheet) (d : Nat) (selTeam : Option Str)
    (chunkSize : Nat) : Metrics :=
  if s.rows.isEmpty then Metrics.zero
  else msum ((chunksOf chunkSize s.rows).map (ddChunkContrib s.cols d selTeam))

/-- Embedding of `calculate_daily_metrics`
(src/scripts/demand_dashboard.py lines 253-362), parameterised by the
chunk size (`chunk_size = 1000` in the source). -/
def calculateDailyMetrics (sheets : List Sheet) (d : Nat)
    (selTeam : Option Str) (chunkSize : Nat) : Metrics :=
  msum (sheets.map (fun s => ddSheetMetrics s d selTeam chunkSize))

/-! ## DataProcessor.process_dataframe
(src/dashboard/data_processor.py lines 131-191) -/

/-- The `'NÃO INFORMADO'` sentinel installed by `fillna`. -/
def NAO_INFORMADO : Str := lit "NÃO INFORMADO"

/-- A processed column: text after `astype(str)` or parsed datetimes. -/
inductive PCol where
  | strs (l : List Str)
  | dates (l : List (Option Nat))
  deriving Repr, DecidableEq

/-- The raw CSV frame handed to `process_dataframe`: named object-dtype
columns whose cells are text or `NaN` (`none`).  (The claims exercised here
only involve object columns, which is what `pd.read_csv` produces for the
date, responsible and status data of these files.) -/
abbrev RawDf := List (Str × List (Option Str))

/-- A processed frame. -/
abbrev PDf := List (Str × PCol)

/-- Keeps the entries of `l` at the positions where `mask` is `true`
(row selection by boolean mask). -/
def applyMask {α : Type} (mask : List Bool) (l : List α) : List α :=
  (mask.zip l).filterMap (fun ba => if ba.1 then some ba.2 else none)

/-- Mask applied to a processed column. -/
def pcolMask (mask : List Bool) : PCol → PCol
  | PCol.strs l => PCol.strs (applyMask mask l)
  | PCol.dates l => PCol.dates (applyMask mask l)

/-- Pointwise transformation of a text column (identity on date columns). -/
def pcolMapStrs (f : Str → Str) : PCol → PCol
  | PCol.strs l => PCol.strs (l.map f)
  | c => c

/-- Applies `f` to the cells of every column named `name`. -/
def dfTransform (name : Str) (f : Str → Str) (d : PDf) : PDf :=
  d.map (fun nc => if nc.1 == name then (nc.1, pcolMapStrs f nc.2) else nc)

/-- Text cells of the first column named `name`. -/
def dfGetStrs (d : PDf) (name : Str) : List Str :=
  match d.lookup name with
  | some (PCol.strs l) => l
  | _ => []

/-- Date cells of the first column named `name`. -/
def dfGetDates (d : PDf) (name : Str) : List (Option Nat) :=
  match d.lookup name with
  | some (PCol.dates l) => l
  | _ => []

/-- Column assignment `df[name] = c`: replaces the cells of every existing
column of that name, or appends a new column at the end. -/
def dfSetCol (d : PDf) (name : Str) (c : PCol) : PDf :=
  if d.any (fun nc => nc.1 == name) then
    d.map (fun nc => if nc.1 == name then (nc.1, c) else nc)
  else d ++ [(name, c)]

/-- Embedding of `DataProcessor.process_dataframe`
(src/dashboard/data_processor.py lines 131-191).  In order: `fillna` with
the sentinel and `astype(str)` on every (object) column; `identify_columns`
and `rename`; `pd.to_datetime(_, format='%d/%m/%Y', errors='coerce')` on
`resolucao` when present; sentinel/strip/upper on `responsavel` and the
derived `equipe` column via `_map_to_team`; strip/upper on `situacao`; and
finally `dropna(subset=['resolucao'])`.  A raised exception is `none`:
`rename` can leave several columns with the same canonical name, in which
case the single-column accesses raise, and `dropna` raises a `KeyError`
when no column was bound to `resolucao`. -/
def processDataframe (df : RawDf) : Option PDf :=
  let dfS : List (Str × List Str) :=
    df.map (fun nc => (nc.1, nc.2.map (fun v => v.getD NAO_INFORMADO)))
  let mapping := identifyColumns (df.map (fun nc => nc.1))
  let renamed : List (Str × List Str) :=
    dfS.map (fun nc => ((mapping.lookup nc.1).getD nc.1, nc.2))
  let names := renamed.map (fun nc => nc.1)
  if 2 ≤ names.count (lit "resolucao") then none
  else if 2 ≤ names.count (lit "responsavel") then none
  else if 2 ≤ names.count (lit "situacao") then none
  else
    let step3 : PDf := renamed.map (fun nc =>
      if nc.1 == lit "resolucao" then (nc.1, PCol.dates (nc.2.map parseDMY))
      else (nc.1, PCol.strs nc.2))
    let step4 : PDf :=
      if names.contains (lit "responsavel") then
        let t := dfTransform (lit "responsavel")
          (fun s => upperStr (trimStr s)) step3
        dfSetCol t (lit "equipe")
          (PCol.strs ((dfGetStrs t (lit "responsavel")).map mapToTeam))
      else step3
    let step5 : PDf :=
      dfTransform (lit "situacao") (fun s => upperStr (trimStr s)) step4
    if names.contains (lit "resolucao") then
      let mask := (dfGetDates step5 (lit "resolucao")).map Option.isSome
      some (step5.map (fun nc => (nc.1, pcolMask mask nc.2)))
    else none

/-! ## General lemmas about the model's building blocks -/

theorem Metrics.add_zero_right (a : Metrics) : a.add Metrics.zero = a := by
  cases a; simp [Metrics.add, Metrics.zero]

theorem Metrics.add_zero_left (a : Metrics) : Metrics.zero.add a = a := by
  cases a; simp [Metrics.add, Metrics.zero]

theorem Metrics.add_assoc (a b c : Metrics) :
    (a.add b).add c = a.add (b.add c) := by
  cases a; cases b; cases c
  simp only [Metrics.add, Metrics.mk.injEq]
  omega

theorem Metrics.add_comm (a b : Metrics) : a.add b = b.add a := by
  cases a; cases b
  simp only [Metrics.add, Metrics.mk.injEq]
  omega

theorem msum_nil : msum [] = Metrics.zero := rfl

theorem msum_cons (a : Metrics) (l : List Metrics) :
    msum (a :: l) = a.add (msum l) := rfl

theorem msum_append (l1 l2 : List Metrics) :
    msum (l1 ++ l2) = (msum l1).add (msum l2) := by
  induction l1 with
  | nil => rw [List.nil_append, msum_nil, Metrics.add_zero_left]
  | cons a t ih => rw [List.cons_append, msum_cons, msum_cons, ih,
      Metrics.add_assoc]

theorem msum_map_zero {α : Type} (l : List α) :
    msum (l.map (fun _ => Metrics.zero)) = Metrics.zero := by
  induction l with
  | nil => rfl
  | cons a t ih => rw [List.map_cons, msum_cons, ih, Metrics.add_zero_left]

theorem msum_map_add {α : Type} (f g : α → Metrics) (l : List α) :
    msum (l.map (fun a => (f a).add (g a))) =
      (msum (l.map f)).add (msum (l.map g)) := by
  induction l with
  | nil => rw [List.map_nil, List.map_nil, List.map_nil, msum_nil,
      Metrics.add_zero_left]
  | cons a t ih =>
    simp only [List.map_cons, msum_cons, ih]
    rw [Metrics.add_assoc, Metrics.add_assoc]
    congr 1
    rw [← Metrics.add_assoc, ← Metrics.add_assoc, Metrics.add_comm (g a)]

theorem msum_exchange {α β : Type} (l : List α) (ts : List β)
    (m : α → β → Metrics) :
    msum (l.map (fun s => msum (ts.map (fun t => m s t)))) =
      msum (ts.map (fun t => msum (l.map (fun s => m s t)))) := by
  induction l with
  | nil =>
    simp only [List.map_nil, msum_nil]
    exact (msum_map_zero ts).symm
  | cons s rest ih =>
    simp only [List.map_cons, msum_cons, ih, ← msum_map_add]

theorem lookup_mem {α β : Type} [BEq α] [LawfulBEq α] (k : α) (v : β)
    (l : List (α × β)) (h : l.lookup k = some v) : (k, v) ∈ l := by
  induction l with
  | nil => simp [List.lookup] at h
  | cons p t ih =>
    obtain ⟨p1, p2⟩ := p
    rw [List.lookup_cons] at h
    split at h
    · next heq =>
      cases h
      have hk : k = p1 := by simpa [beq_iff_eq] using heq
      subst hk
      exact List.mem_cons_self ..
    · exact List.mem_cons_of_mem _ (ih h)

theorem applyMask_isSome {α : Type} (l : List (Option α)) :
    ∀ v ∈ applyMask (l.map Option.isSome) l, v.isSome = true := by
  induction l with
  | nil => intro v hv; simp [applyMask] at hv
  | cons a t ih =>
    intro v hv
    cases a with
    | none => exact ih v (by simpa [applyMask] using hv)
    | some w =>
      rw [show applyMask ((some w :: t).map Option.isSome) (some w :: t) =
            some w :: applyMask (t.map Option.isSome) t from rfl] at hv
      rcases List.mem_cons.1 hv with h | h
      · simp [h]
      · exact ih v h

theorem sum_map_add_nat {α : Type} (f g : α → Nat) (l : List α) :
    (l.map (fun a => f a + g a)).sum = (l.map f).sum + (l.map g).sum := by
  induction l with
  | nil => rfl
  | cons a t ih =>
    simp only [List.map_cons, List.sum_cons, ih]
    omega

theorem sum_map_ite_zero {α : Type} [DecidableEq α] (v : α) (ts : List α)
    (h : v ∉ ts) : (ts.map (fun t => if v = t then 1 else 0)).sum = 0 := by
  induction ts with
  | nil => rfl
  | cons t tts ih =>
    have h1 : ¬ v = t := fun hc => h (by simp [hc])
    have h2 : v ∉ tts := fun hc => h (List.mem_cons_of_mem t hc)
    simp only [List.map_cons, List.sum_cons, ih h2]
    simp [h1]

theorem sum_map_ite_one {α : Type} [DecidableEq α] (v : α) (ts : List α)
    (hnd : ts.Nodup) (hmem : v ∈ ts) :
    (ts.map (fun t => if v = t then 1 else 0)).sum = 1 := by
  induction ts with
  | nil => simp at hmem
  | cons t tts ih =>
    rcases List.mem_cons.1 hmem with h | h
    · have hnotin : v ∉ tts := fun hc => (List.nodup_cons.1 hnd).1 (h ▸ hc)
      simp only [List.map_cons, List.sum_cons, sum_map_ite_zero v tts hnotin]
      simp [h]
    · have hne : ¬ v = t := by
        intro hc
        exact (List.nodup_cons.1 hnd).1 (hc ▸ h)
      simp only [List.map_cons, List.sum_cons, ih (List.nodup_cons.1 hnd).2 h]
      simp [hne]

theorem countP_partition {α β : Type} [DecidableEq α]
    (rows : List β) (val : β → α) (P : β → Bool) (ts : List α)
    (hnd : ts.Nodup) (hcov : ∀ r ∈ rows, P r = true → val r ∈ ts) :
    (ts.map (fun t => rows.countP (fun x => decide (val x = t) && P x))).sum =
      rows.countP P := by
  induction rows with
  | nil => simp
  | cons r rest ih =>
    have hrest : ∀ x ∈ rest, P x = true → val x ∈ ts := by
      intro x hx
      exact hcov x (List.mem_cons_of_mem r hx)
    simp only [List.countP_cons]
    rw [show (ts.map (fun t =>
          rest.countP (fun x => decide (val x = t) && P x) +
            if (decide (val r = t) && P r) = true then 1 else 0)).sum =
        (ts.map (fun t =>
          rest.countP (fun x => decide (val x = t) && P x))).sum +
          (ts.map (fun t =>
            if (decide (val r = t) && P r) = true then 1 else 0)).sum
      from sum_map_add_nat _ _ ts]
    rw [ih hrest]
    congr 1
    by_cases hP : P r = true
    · have hmem : val r ∈ ts := hcov r (List.mem_cons_self r rest) hP
      simp only [hP, Bool.and_true, decide_eq_true_eq]
      rw [sum_map_ite_one (val r) ts hnd hmem]
      simp
    · have hP2 : P r = false := by
        cases hPv : P r
        · rfl
        · exact absurd hPv hP
      simp [hP2]

/-! ## Claim C5: non-exclusive status classification -/

/-- C5 (confirmed): status classification is non-exclusive.  Each status
category counter of `DataService.get_daily_metrics` is tested independently
by keyword substring, so a row whose status text contains both a RESOLVED
keyword and a SETTLED (`QUITAD`) keyword increments both the `resolvidos`
counter and the `quitado` counter. -/
theorem c5_status_non_exclusive (cols : List (Str × Bool)) (sc : Str)
    (r : Row) (rows : List Row)
    (h1 : anySub RESOLVED_PATS (upperStr (rowTxt r sc)) = true)
    (h2 : anySub QUITADO_PATS (upperStr (rowTxt r sc)) = true) :
    (dsCounts cols sc (r :: rows)).resolvidos =
      (dsCounts cols sc rows).resolvidos + 1 ∧
    (dsCounts cols sc (r :: rows)).quitado =
      (dsCounts cols sc rows).quitado + 1 := by
  constructor <;> simp [dsCounts, List.countP_cons, h1, h2]

/-- Witness row for C5: a status containing both keyword families. -/
def c5row : Row := [(lit "SITUACAO", Cell.txt (lit "RESOLVIDO E QUITADO"))]

/-- C5 witness at a concrete row. -/
theorem c5_witness :
    (dsCounts [(lit "SITUACAO", false)] (lit "SITUACAO") [c5row]).resolvidos =
      (dsCounts [(lit "SITUACAO", false)] (lit "SITUACAO") []).resolvidos + 1 ∧
    (dsCounts [(lit "SITUACAO", false)] (lit "SITUACAO") [c5row]).quitado =
      (dsCounts [(lit "SITUACAO", false)] (lit "SITUACAO") []).quitado + 1 :=
  c5_status_non_exclusive [(lit "SITUACAO", false)] (lit "SITUACAO") c5row []
    (by decide) (by decide)

/-! ## Claim C10: sheets without an EQUIPE column are never team-filtered -/

/-- C10 (confirmed): when `get_daily_metrics` is called with a team, a
sheet having no column whose upper-cased name contains `EQUIPE` is not
filtered at all; it contributes to the team-scoped query exactly as it
contributes to the all-teams query. -/
theorem c10_no_equipe_unfiltered (s : Sheet) (d : Nat) (t : Str)
    (h : findEquipeCol s.cols = none) :
    dsSheetMetrics s d (some t) = dsSheetMetrics s d none := by
  unfold dsSheetMetrics dsMatchedRows dsTeamRows
  rw [h]
  cases teamArg (some t) <;> rfl

/-- Witness sheet for C10: one dated resolved row, no EQUIPE column. -/
def c10sheet : Sheet :=
  { cols := [(lit "SITUACAO", false), (lit "DATA", true)]
    rows := [[(lit "SITUACAO", Cell.txt (lit "RESOLVIDO")),
              (lit "DATA", Cell.dt (some 20250110))]] }

/-- C10 witness at a concrete sheet and team. -/
theorem c10_witness :
    dsSheetMetrics c10sheet 20250110 (some (lit "JULIO")) =
      dsSheetMetrics c10sheet 20250110 none :=
  c10_no_equipe_unfiltered c10sheet 20250110 (lit "JULIO") (by decide)

/-! ## Claim C9: absent scope yields the zero record, not an exception -/

/-- C9 (confirmed): for every date and team for which no loaded row
survives the team and date filters in any sheet — including the state with
no sheets loaded at all — `get_daily_metrics` returns the all-zero counter
record.  (The embedding is total, mirroring the fact that this code path
raises no exception.) -/
theorem c9_zero_on_no_match (sheets : List Sheet) (d : Nat)
    (team : Option Str)
    (h : ∀ s ∈ sheets, dsMatchedRows s d team = []) :
    dsGetDailyMetrics sheets d team = Metrics.zero := by
  induction sheets with
  | nil => rfl
  | cons s ss ih =>
    have hs := h s (List.mem_cons_self ..)
    have hss : ∀ x ∈ ss, dsMatchedRows x d team = [] := fun x hx =>
      h x (List.mem_cons_of_mem s hx)
    have hzero : dsSheetMetrics s d team = Metrics.zero := by
      by_cases hr : s.rows.isEmpty <;>
        cases hsc : getSituacaoColumn s.cols <;>
          simp [dsSheetMetrics, hr, hsc, hs]
    show (dsSheetMetrics s d team).add (dsGetDailyMetrics ss d team) =
      Metrics.zero
    rw [hzero, ih hss, Metrics.add_zero_left]

/-- Witness sheet for C9: one row dated differently from the query. -/
def c9sheet : Sheet :=
  { cols := [(lit "SITUACAO", false), (lit "DATA", true)]
    rows := [[(lit "SITUACAO", Cell.txt (lit "RESOLVIDO")),
              (lit "DATA", Cell.dt (some 20250110))]] }

/-- C9 witness: a query for a date with no matching rows returns zeros. -/
theorem c9_witness :
    dsGetDailyMetrics [c9sheet] 20250111 none = Metrics.zero :=
  c9_zero_on_no_match [c9sheet] 20250111 none (by decide)

/-! ## Claim C2: team classification of the sentinel -/

/-- C2 counterexample: the `'NÃO INFORMADO'` sentinel text is classified
as the OTHERS bucket by both classifiers, not as a NO_RESPONSIBLE value.
`_map_to_team` has no sentinel branch at all, and `get_team` only returns
`"Sem Responsável"` for a missing (`NaN`) value, which the sentinel text is
not. -/
theorem c2_counterexample :
    mapToTeam NAO_INFORMADO = lit "OUTROS" ∧
    getTeam (some NAO_INFORMADO) = lit "Outros" ∧
    lit "OUTROS" ≠ lit "Sem Responsável" ∧
    lit "Outros" ≠ lit "Sem Responsável" := by
  refine ⟨by decide, ?_, by decide, by decide⟩
  decide

/-- C2 (corrected): the first-match priority and OTHERS fallback of the
team classifier hold as specified, but the NO_RESPONSIBLE branch only
applies to a missing (`NaN`) responsible in `get_team`; the
`'NÃO INFORMADO'` sentinel text itself falls through to OTHERS (see the
counterexample).  First conjunct: a name contained in no roster maps to
`'OUTROS'`.  Second: a name first contained in the roster entry `tm` (no
earlier entry contains it) maps to `tm`'s team, for every roster and
position.  Third: a missing responsible is `"Sem Responsável"`. -/
theorem c2_amended_first_match (roster : List (Str × List Str)) (r : Str) :
    ((∀ tm ∈ roster, r ∉ tm.2) → firstTeam roster r = lit "OUTROS") ∧
    (∀ pre tm post, roster = pre ++ tm :: post → r ∈ tm.2 →
      (∀ tm2 ∈ pre, r ∉ tm2.2) → firstTeam roster r = tm.1) ∧
    getTeam none = lit "Sem Responsável" := by
  refine ⟨?_, ?_, rfl⟩
  · intro h
    unfold firstTeam
    have hfind : roster.find? (fun tm => tm.2.contains r) = none := by
      rw [List.find?_eq_none]
      intro tm hm
      simpa using h tm hm
    rw [hfind]
  · intro pre tm post hro hmem hpre
    subst hro
    induction pre with
    | nil =>
      unfold firstTeam
      rw [List.nil_append, List.find?_cons_of_pos _ (by simpa using hmem)]
    | cons a pre2 ih =>
      have ha : r ∉ a.2 := hpre a (List.mem_cons_self ..)
      have hpre2 : ∀ tm2 ∈ pre2, r ∉ tm2.2 := fun tm2 h2 =>
        hpre tm2 (List.mem_cons_of_mem a h2)
      unfold firstTeam
      rw [List.cons_append, List.find?_cons_of_neg _ (by simpa using ha)]
      exact ih hpre2

/-- C2 witness: the OTHERS fallback, the priority match and the missing
case, each at a concrete input. -/
theorem c2_amended_witness :
    firstTeam TEAM_MAPPING (lit "ZEZINHO") = lit "OUTROS" ∧
    firstTeam TEAM_MAPPING (lit "LEANDRO") = lit "LEANDRO" ∧
    getTeam none = lit "Sem Responsável" :=
  ⟨(c2_amended_first_match TEAM_MAPPING (lit "ZEZINHO")).1 (by decide),
   (c2_amended_first_match TEAM_MAPPING (lit "LEANDRO")).2.1
     [(lit "JULIO", [lit "JULIO"])] (lit "LEANDRO", [lit "LEANDRO"])
     [(lit "ADRIANO", [lit "ADRIANO"])] (by decide) (by decide) (by decide),
   (c2_amended_first_match TEAM_MAPPING (lit "LEANDRO")).2.2⟩

/-! ## Claim C4: direction of the column-mapping invariant -/

/-- C4 counterexample: `identify_columns` keys its mapping by raw column,
so the two raw columns `RESOLUCAO` and `DATA` are both bound to the
canonical field `resolucao` — the produced mapping does not bind at most
one raw column per canonical field. -/
theorem c4_counterexample :
    identifyColumns [lit "RESOLUCAO", lit "DATA"] =
      [(lit "RESOLUCAO", lit "resolucao"), (lit "DATA", lit "resolucao")] ∧
    ((identifyColumns [lit "RESOLUCAO", lit "DATA"]).map Prod.snd).count
        (lit "resolucao") = 2 := by
  constructor
  · decide
  · decide

/-- The raw columns bound by `identify_columns` are a subsequence of the
input columns: each raw column produces at most one binding. -/
theorem identifyColumns_fst_sublist (columns : List Str) :
    ((identifyColumns columns).map Prod.fst).Sublist columns := by
  induction columns with
  | nil => simp [identifyColumns]
  | cons c cs ih =>
    simp only [identifyColumns, List.filterMap_cons] at ih ⊢
    cases hfc : (colTarget c).map (fun t => (c, t)) with
    | none => exact ih.cons c
    | some p =>
      obtain ⟨t, ht, hp⟩ := Option.map_eq_some'.1 hfc
      subst hp
      exact ih.cons₂ c

/-- C4 (corrected): the invariant holds in the opposite direction to the
claim.  Each raw column is bound to at most one canonical field (for
duplicate-free raw headers the mapping's raw-column keys are
duplicate-free, and each binding pairs an input column with one of the
three canonical fields), but several raw columns of one source may be
bound to the same canonical field (see the counterexample). -/
theorem c4_amended_each_rawcol_once (columns : List Str)
    (h : columns.Nodup) :
    ((identifyColumns columns).map Prod.fst).Nodup ∧
    ∀ p ∈ identifyColumns columns,
      p.1 ∈ columns ∧ p.2 ∈ EXPECTED_COLUMNS.map Prod.fst := by
  constructor
  · exact h.sublist (identifyColumns_fst_sublist columns)
  · intro p hp
    obtain ⟨a, ha, hfa⟩ := List.mem_filterMap.1 hp
    obtain ⟨t, hta, hp2⟩ := Option.map_eq_some'.1 hfa
    simp only [colTarget] at hta
    obtain ⟨tc, hfind, htc⟩ := Option.map_eq_some'.1 hta
    have htcm : tc ∈ EXPECTED_COLUMNS := List.mem_of_find?_eq_some hfind
    subst hp2
    refine ⟨ha, ?_⟩
    rw [← htc]
    exact List.mem_map_of_mem Prod.fst htcm

/-- C4 witness: concrete duplicate-free headers. -/
theorem c4_amended_witness :
    ((identifyColumns [lit "DATA", lit "RESP", lit "STATUS"]).map
        Prod.fst).Nodup ∧
    ∀ p ∈ identifyColumns [lit "DATA", lit "RESP", lit "STATUS"],
      p.1 ∈ [lit "DATA", lit "RESP", lit "STATUS"] ∧
        p.2 ∈ EXPECTED_COLUMNS.map Prod.fst :=
  c4_amended_each_rawcol_once [lit "DATA", lit "RESP", lit "STATUS"]
    (by decide)

/-! ## Claim C1: rows with unparseable dates are dropped, not retained -/

/-- Input for the C1 counterexample: one row whose date cell does not parse
(day 32). -/
def c1df : RawDf :=
  [(lit "RESOLUCAO", [some (lit "32/01/2025")]),
   (lit "RESPONSAVEL", [some (lit "JULIO")]),
   (lit "SITUACAO", [some (lit "PENDENTE")])]

/-- C1 counterexample: the record whose date fails to parse is not
retained with a null date — `dropna(subset=['resolucao'])` removes it, so
the processed frame has zero rows and the record contributes to no counts
at all. -/
theorem c1_counterexample :
    processDataframe c1df =
      some [(lit "resolucao", PCol.dates []),
            (lit "responsavel", PCol.strs []),
            (lit "situacao", PCol.strs []),
            (lit "equipe", PCol.strs [])] := by
  decide

/-- Lookup commutes with a value-wise map of an association list. -/
theorem lookup_map_snd {α β γ : Type} [BEq α] (g : β → γ)
    (d : List (α × β)) (k : α) :
    (d.map (fun nc => (nc.1, g nc.2))).lookup k = (d.lookup k).map g := by
  induction d with
  | nil => rfl
  | cons p t ih =>
    obtain ⟨p1, p2⟩ := p
    by_cases hk : (k == p1) = true <;>
      simp [List.lookup_cons, hk, ih]

/-- C1 (corrected): on total date-parse failure the field is set null and
the record is then removed from the output by the final
`dropna(subset=['resolucao'])`, so it is excluded from all aggregations,
not only date-scoped ones.  Consequently every record that
`process_dataframe` returns carries a non-null parsed date. -/
theorem c1_amended_no_null_dates (df : RawDf) (out : PDf)
    (h : processDataframe df = some out) (l : List (Option Nat))
    (hl : out.lookup (lit "resolucao") = some (PCol.dates l)) :
    ∀ v ∈ l, v.isSome = true := by
  simp only [processDataframe] at h
  split at h
  · exact absurd h (by simp)
  · split at h
    · exact absurd h (by simp)
    · split at h
      · exact absurd h (by simp)
      · split at h
        · simp only [Option.some.injEq] at h
          subst h
          rw [lookup_map_snd] at hl
          obtain ⟨pc, hpc, hmask⟩ := Option.map_eq_some'.1 hl
          cases pc with
          | strs ls => simp [pcolMask] at hmask
          | dates dl =>
            simp only [pcolMask, PCol.dates.injEq] at hmask
            rw [show dfGetDates _ (lit "resolucao") = dl by
                  unfold dfGetDates; rw [hpc]] at hmask
            subst hmask
            exact applyMask_isSome dl
        · exact absurd h (by simp)

/-- Input for the C1 witness: one parseable and one unparseable date. -/
def c1wdf : RawDf :=
  [(lit "DATA", [some (lit "10/01/2025"), some (lit "bogus")])]

/-- C1 witness: on a concrete frame the surviving resolucao column has
only non-null dates. -/
theorem c1_amended_witness :
    processDataframe c1wdf =
      some [(lit "resolucao", PCol.dates [some 20250110])] ∧
    Option.isSome (some (20250110 : Nat)) = true :=
  ⟨by decide,
   c1_amended_no_null_dates c1wdf
     [(lit "resolucao", PCol.dates [some 20250110])] (by decide)
     [some 20250110] (by decide) (some 20250110) (by decide)⟩

/-! ## Claim C7: idempotence of text normalisation -/

/-- C7 counterexample: `normalize_name` is not idempotent on every text,
in two distinct ways.  The spacing diaeresis U+00A8 is not whitespace, so
it survives `strip`, and its NFKD decomposition starts with an ordinary
space, which only the second pass strips.  The feminine ordinal U+00AA has
no uppercase mapping, so it survives `upper`, and its NFKD decomposition
is the lowercase ASCII letter `a`, which only the second pass
uppercases. -/
theorem c7_counterexample :
    normalizeName (normalizeName (lit "\u00A8A")) ≠
      normalizeName (lit "\u00A8A") ∧
    normalizeName (normalizeName (lit "\u00AA")) ≠
      normalizeName (lit "\u00AA") := by
  constructor
  · decide
  · decide

/-- A character is ASCII and fixed by NFKD decomposition.  Every character
`normalize_name` emits has this property (but it need not be fixed by
upper-casing: the decompositions of U+00AA/U+00BA/U+2071 emit lowercase
ASCII letters). -/
def asciiStable (c : Char) : Bool :=
  isAsciiChar c && (charDecomp c == [c])

/-- Every ASCII character in the decomposition of a value of the
upper-casing table is ASCII-stable (finite check over the tables). -/
theorem upperVals_ascii_ok :
    ∀ u ∈ upperMap.map Prod.snd, ∀ c ∈ charDecomp u,
      isAsciiChar c = true → asciiStable c = true := by
  decide

/-- Every ASCII character in the decomposition of a decomposition-table
key is ASCII-stable (finite check over the tables). -/
theorem decompKeys_ascii_ok :
    ∀ k ∈ decompTable.map Prod.fst, ∀ c ∈ charDecomp k,
      isAsciiChar c = true → asciiStable c = true := by
  decide

/-- The ASCII part of `charDecomp (upperChar c0)` consists of ASCII-stable
characters, for every character `c0`. -/
theorem decomp_upper_ascii (c0 : Char) :
    ∀ c ∈ charDecomp (upperChar c0), isAsciiChar c = true →
      asciiStable c = true := by
  intro c hc hascii
  cases hu : upperMap.lookup c0 with
  | some u =>
    have hcu : c ∈ charDecomp u := by
      simpa only [upperChar, hu] using hc
    exact upperVals_ascii_ok u
      (List.mem_map.2 ⟨(c0, u), lookup_mem c0 u _ hu, rfl⟩) c hcu hascii
  | none =>
    have hcu : c ∈ charDecomp c0 := by
      simpa only [upperChar, hu] using hc
    cases hd : decompTable.lookup c0 with
    | some w =>
      exact decompKeys_ascii_ok c0
        (List.mem_map.2 ⟨(c0, w), lookup_mem c0 w _ hd, rfl⟩) c hcu hascii
    | none =>
      have hcc : c = c0 := by
        simpa only [charDecomp, hd, List.mem_singleton] using hcu
      subst hcc
      simp only [asciiStable, charDecomp, hd, hascii]
      simp

/-- Every character of a normalised name is ASCII-stable. -/
theorem mem_normalizeName_ascii (s : Str) :
    ∀ c ∈ normalizeName s, asciiStable c = true := by
  intro c hc
  unfold normalizeName at hc
  obtain ⟨hmem, hascii⟩ := List.mem_filter.1 hc
  obtain ⟨y, hy, hcy⟩ := List.mem_flatMap.1 hmem
  obtain ⟨c0, hc0, rfl⟩ := List.mem_map.1 hy
  exact decomp_upper_ascii c0 c hcy hascii

/-- Membership in a stripped string implies membership in the string. -/
theorem mem_of_mem_trimStr (c : Char) (s : Str) (h : c ∈ trimStr s) :
    c ∈ s := by
  unfold trimStr at h
  rw [List.mem_reverse] at h
  have h2 := (List.dropWhile_sublist (l := (s.dropWhile isPyWhite).reverse)
    (p := isPyWhite)).mem h
  rw [List.mem_reverse] at h2
  exact (List.dropWhile_sublist (l := s) (p := isPyWhite)).mem h2

/-- A list of decomposition-stable characters is fixed by flatMap. -/
theorem flatMap_id_of_singleton (l : Str)
    (h : ∀ c ∈ l, charDecomp c = [c]) : l.flatMap charDecomp = l := by
  induction l with
  | nil => rfl
  | cons c t ih =>
    rw [List.flatMap_cons, h c (List.mem_cons_self ..),
      ih (fun x hx => h x (List.mem_cons_of_mem c hx))]
    rfl

/-- The upper-casing table sends ASCII characters to ASCII characters
that are fixed by decomposition (finite check: only the `a`-`z` entries
have an ASCII key). -/
theorem upperMap_ascii_entries :
    ∀ p ∈ upperMap, isAsciiChar p.1 = true →
      isAsciiChar p.2 = true ∧ charDecomp p.2 = [p.2] := by
  decide

/-- The upper-case image of an ASCII-stable character is ASCII and fixed
by decomposition. -/
theorem upperChar_ascii_stable (c : Char) (h : asciiStable c = true) :
    isAsciiChar (upperChar c) = true ∧
      charDecomp (upperChar c) = [upperChar c] := by
  simp only [asciiStable, Bool.and_eq_true, beq_iff_eq] at h
  cases hu : upperMap.lookup c with
  | some u =>
    have hmem : (c, u) ∈ upperMap := lookup_mem c u _ hu
    have h2 := upperMap_ascii_entries (c, u) hmem h.1
    simpa only [upperChar, hu] using h2
  | none =>
    have heq : upperChar c = c := by simp only [upperChar, hu]
    rw [heq]
    exact ⟨h.1, h.2⟩

/-- On a string of ASCII-stable characters — such as any output of
`normalize_name` — the normalisation reduces to strip followed by
upper-casing: decomposition and the ASCII fold act as the identity. -/
theorem normalizeName_ascii (z : Str)
    (h : ∀ c ∈ z, asciiStable c = true) :
    normalizeName z = upperStr (trimStr z) := by
  have hz : ∀ c ∈ trimStr z, asciiStable c = true := fun c hc =>
    h c (mem_of_mem_trimStr c z hc)
  have hdec : ∀ u ∈ (trimStr z).map upperChar, charDecomp u = [u] := by
    intro u hu
    obtain ⟨c, hc, rfl⟩ := List.mem_map.1 hu
    exact (upperChar_ascii_stable c (hz c hc)).2
  have hasc : ∀ u ∈ (trimStr z).map upperChar, isAsciiChar u = true := by
    intro u hu
    obtain ⟨c, hc, rfl⟩ := List.mem_map.1 hu
    exact (upperChar_ascii_stable c (hz c hc)).1
  unfold normalizeName upperStr
  rw [flatMap_id_of_singleton _ hdec, List.filter_eq_self.mpr hasc]

/-- C7 (corrected): the second normalisation pass reduces exactly to
Python `strip` followed by upper-casing of the first pass's output: for
every text `x`, `normalize(normalize(x)) = upper(strip(normalize(x)))`
(the first pass always yields ASCII text, on which NFKD and the ASCII
fold are identities).  Idempotence therefore fails exactly when that
output has leading or trailing whitespace or a lowercase letter, as in
the two counterexamples: U+00A8 turns into a leading space that only the
second pass strips, and U+00AA turns into a lowercase `a` that only the
second pass uppercases. -/
theorem c7_amended_upper_strip (s : Str) :
    normalizeName (normalizeName s) = upperStr (trimStr (normalizeName s)) :=
  normalizeName_ascii (normalizeName s) (mem_normalizeName_ascii s)

/-! ## Claim C8: correctness of get_date_range -/

theorem foldr_min_le_mem (l : List Nat) (a : Nat) :
    ∀ v ∈ l, l.foldr min a ≤ v := by
  induction l with
  | nil => intro v hv; simp at hv
  | cons c t ih =>
    intro v hv
    rcases List.mem_cons.1 hv with h | h
    · subst h; simp only [List.foldr_cons]; omega
    · have := ih v h; simp only [List.foldr_cons]; omega

theorem foldr_max_ge_mem (l : List Nat) (a : Nat) :
    ∀ v ∈ l, v ≤ l.foldr max a := by
  induction l with
  | nil => intro v hv; simp at hv
  | cons c t ih =>
    intro v hv
    rcases List.mem_cons.1 hv with h | h
    · subst h; simp only [List.foldr_cons]; omega
    · have := ih v h; simp only [List.foldr_cons]; omega

theorem foldr_min_mem (l : List Nat) (a : Nat) (hne : l ≠ [])
    (hub : ∀ v ∈ l, v ≤ a) : l.foldr min a ∈ l := by
  induction l with
  | nil => exact absurd rfl hne
  | cons c t ih =>
    cases t with
    | nil =>
      have hc : c ≤ a := hub c (List.mem_cons_self ..)
      have : (c :: []).foldr min a = c := by
        simp only [List.foldr_cons, List.foldr_nil]
        omega
      rw [this]
      exact List.mem_cons_self ..
    | cons d t2 =>
      have hm : (d :: t2).foldr min a ∈ d :: t2 :=
        ih (by simp) (fun v hv => hub v (List.mem_cons_of_mem c hv))
      rcases Nat.le_total c ((d :: t2).foldr min a) with hle | hle
      · have : (c :: d :: t2).foldr min a = c := by
          rw [List.foldr_cons]
          omega
        rw [this]
        exact List.mem_cons_self ..
      · have : (c :: d :: t2).foldr min a = (d :: t2).foldr min a := by
          rw [List.foldr_cons]
          omega
        rw [this]
        exact List.mem_cons_of_mem c hm

theorem foldr_max_mem (l : List Nat) (hne : l ≠ []) :
    l.foldr max 0 ∈ l := by
  induction l with
  | nil => exact absurd rfl hne
  | cons c t ih =>
    cases t with
    | nil =>
      have : (c :: []).foldr max 0 = c := by
        simp only [List.foldr_cons, List.foldr_nil]
        omega
      rw [this]
      exact List.mem_cons_self ..
    | cons d t2 =>
      have hm : (d :: t2).foldr max 0 ∈ d :: t2 := ih (by simp)
      rcases Nat.le_total c ((d :: t2).foldr max 0) with hle | hle
      · have : (c :: d :: t2).foldr max 0 = (d :: t2).foldr max 0 := by
          rw [List.foldr_cons]
          omega
        rw [this]
        exact List.mem_cons_of_mem c hm
      · have : (c :: d :: t2).foldr max 0 = c := by
          rw [List.foldr_cons]
          omega
        rw [this]
        exact List.mem_cons_self ..

theorem foldr_min_min (l : List Nat) (b a : Nat) :
    l.foldr min (min b a) = min b (l.foldr min a) := by
  induction l with
  | nil => rfl
  | cons c t ih => simp only [List.foldr_cons, ih]; omega

theorem foldr_max_max (l : List Nat) (b a : Nat) :
    l.foldr max (max b a) = max b (l.foldr max a) := by
  induction l with
  | nil => rfl
  | cons c t ih => simp only [List.foldr_cons, ih]; omega

theorem foldr_min_comm (l1 l2 : List Nat) (a : Nat) :
    l1.foldr min (l2.foldr min a) = l2.foldr min (l1.foldr min a) := by
  induction l1 with
  | nil => rfl
  | cons c t ih =>
    simp only [List.foldr_cons, ih]
    rw [show min c (l2.foldr min (t.foldr min a)) =
          l2.foldr min (min c (t.foldr min a)) from
        (foldr_min_min l2 c (t.foldr min a)).symm]

theorem foldr_max_comm (l1 l2 : List Nat) (a : Nat) :
    l1.foldr max (l2.foldr max a) = l2.foldr max (l1.foldr max a) := by
  induction l1 with
  | nil => rfl
  | cons c t ih =>
    simp only [List.foldr_cons, ih]
    rw [show max c (l2.foldr max (t.foldr max a)) =
          l2.foldr max (max c (t.foldr max a)) from
        (foldr_max_max l2 c (t.foldr max a)).symm]

theorem dsColMin_none_iff (l : List (Option Nat)) :
    dsColMin l = none ↔ l.filterMap id = [] := by
  induction l with
  | nil => simp [dsColMin]
  | cons o t ih =>
    cases o with
    | none => simpa [dsColMin, List.filterMap_cons] using ih
    | some v =>
      simp only [dsColMin, List.foldr_cons, List.filterMap_cons]
      cases h : dsColMin t <;> simp [dsColMin] at h <;> simp [h]

theorem dsColMin_cons (o : Option Nat) (t : List (Option Nat)) :
    dsColMin (o :: t) =
      match o, dsColMin t with
      | some v, some w => some (min v w)
      | some v, none => some v
      | none, a => a := rfl

theorem dsColMin_fold (l : List (Option Nat)) (a : Nat) :
    (match dsColMin l with
     | some v => if v < a then v else a
     | none => a) = (l.filterMap id).foldr min a := by
  induction l with
  | nil => rfl
  | cons o t ih =>
    cases o with
    | none =>
      simpa [dsColMin_cons, List.filterMap_cons] using ih
    | some v =>
      rw [dsColMin_cons,
        show List.filterMap id (some v :: t) = v :: List.filterMap id t
          from rfl,
        List.foldr_cons]
      cases h : dsColMin t with
      | none =>
        have hf : t.filterMap id = [] := (dsColMin_none_iff t).1 h
        rw [hf]
        show (if v < a then v else a) = min v (List.foldr min a [])
        simp only [List.foldr_nil]
        split <;> omega
      | some w =>
        rw [h] at ih
        have ih2 : (if w < a then w else a) = (t.filterMap id).foldr min a :=
          ih
        show (if min v w < a then min v w else a) =
          min v ((t.filterMap id).foldr min a)
        rw [← ih2]
        split <;> split <;> omega

theorem dsColMax_none_iff (l : List (Option Nat)) :
    dsColMax l = none ↔ l.filterMap id = [] := by
  induction l with
  | nil => simp [dsColMax]
  | cons o t ih =>
    cases o with
    | none => simpa [dsColMax, List.filterMap_cons] using ih
    | some v =>
      simp only [dsColMax, List.foldr_cons, List.filterMap_cons]
      cases h : dsColMax t <;> simp [dsColMax] at h <;> simp [h]

theorem dsColMax_cons (o : Option Nat) (t : List (Option Nat)) :
    dsColMax (o :: t) =
      match o, dsColMax t with
      | some v, some w => some (max v w)
      | some v, none => some v
      | none, a => a := rfl

theorem dsColMax_fold (l : List (Option Nat)) (a : Nat) :
    (match dsColMax l with
     | some v => if a < v then v else a
     | none => a) = (l.filterMap id).foldr max a := by
  induction l with
  | nil => rfl
  | cons o t ih =>
    cases o with
    | none =>
      simpa [dsColMax_cons, List.filterMap_cons] using ih
    | some v =>
      rw [dsColMax_cons,
        show List.filterMap id (some v :: t) = v :: List.filterMap id t
          from rfl,
        List.foldr_cons]
      cases h : dsColMax t with
      | none =>
        have hf : t.filterMap id = [] := (dsColMax_none_iff t).1 h
        rw [hf]
        show (if a < v then v else a) = max v (List.foldr max a [])
        simp only [List.foldr_nil]
        split <;> omega
      | some w =>
        rw [h] at ih
        have ih2 : (if a < w then w else a) = (t.filterMap id).foldr max a :=
          ih
        show (if a < max v w then max v w else a) =
          max v ((t.filterMap id).foldr max a)
        rw [← ih2]
        split <;> split <;> omega

theorem drStep_eq (cols : List (Str × Bool)) (rows : List Row)
    (mm : Nat × Nat) (name : Str) :
    drStep cols rows mm name =
      ((colDatesOf cols rows name).foldr min mm.1,
       (colDatesOf cols rows name).foldr max mm.2) := by
  unfold drStep colDatesOf
  by_cases h : colIsDt cols name = true
  · simp only [h, if_true]
    refine Prod.ext ?_ ?_
    · exact dsColMin_fold (rows.map (fun r => rowDate r name)) mm.1
    · exact dsColMax_fold (rows.map (fun r => rowDate r name)) mm.2
  · simp only [h]
    simp

theorem foldl_drStep (cols : List (Str × Bool)) (rows : List Row)
    (names : List Str) (mm : Nat × Nat) :
    names.foldl (drStep cols rows) mm =
      ((names.flatMap (colDatesOf cols rows)).foldr min mm.1,
       (names.flatMap (colDatesOf cols rows)).foldr max mm.2) := by
  induction names generalizing mm with
  | nil => simp
  | cons n ns ih =>
    rw [List.foldl_cons, ih (drStep cols rows mm n), drStep_eq,
      List.flatMap_cons]
    refine Prod.ext ?_ ?_
    · simp only [List.foldr_append]
      exact foldr_min_comm (ns.flatMap (colDatesOf cols rows))
        (colDatesOf cols rows n) mm.1
    · simp only [List.foldr_append]
      exact foldr_max_comm (ns.flatMap (colDatesOf cols rows))
        (colDatesOf cols rows n) mm.2

theorem getDateRangeAux (sheets : List Sheet) (mm : Nat × Nat) :
    sheets.foldl
        (fun mm s => dsDateCols.foldl (drStep s.cols s.rows) mm) mm =
      ((collectDates sheets).foldr min mm.1,
       (collectDates sheets).foldr max mm.2) := by
  induction sheets generalizing mm with
  | nil => simp [collectDates]
  | cons s ss ih =>
    rw [List.foldl_cons, ih, foldl_drStep]
    have hcd : collectDates (s :: ss) =
        dsDateCols.flatMap (colDatesOf s.cols s.rows) ++ collectDates ss := by
      simp [collectDates]
    rw [hcd]
    refine Prod.ext ?_ ?_
    · simp only [List.foldr_append]
      exact foldr_min_comm (collectDates ss)
        (dsDateCols.flatMap (colDatesOf s.cols s.rows)) mm.1
    · simp only [List.foldr_append]
      exact foldr_max_comm (collectDates ss)
        (dsDateCols.flatMap (colDatesOf s.cols s.rows)) mm.2

theorem getDateRange_eq (sheets : List Sheet) :
    getDateRange sheets =
      ((collectDates sheets).foldr min DTMAX,
       (collectDates sheets).foldr max 0) :=
  getDateRangeAux sheets (DTMAX, 0)

/-- C8 (confirmed): when at least one non-null date is loaded (and every
date is a representable datetime, hence at most `datetime.max`),
`get_date_range` returns exactly the minimum and maximum over all non-null
dates of all datetime date columns of all loaded sheets; and appending a
sheet contributing only null dates leaves the result unchanged. -/
theorem c8_date_range (sheets : List Sheet)
    (hub : ∀ v ∈ collectDates sheets, v ≤ DTMAX)
    (hne : collectDates sheets ≠ []) :
    ((getDateRange sheets).1 ∈ collectDates sheets ∧
      (getDateRange sheets).2 ∈ collectDates sheets ∧
      ∀ v ∈ collectDates sheets,
        (getDateRange sheets).1 ≤ v ∧ v ≤ (getDateRange sheets).2) ∧
    ∀ s2, collectDates [s2] = [] →
      getDateRange (sheets ++ [s2]) = getDateRange sheets := by
  constructor
  · rw [getDateRange_eq]
    refine ⟨foldr_min_mem _ DTMAX hne hub, foldr_max_mem _ hne, ?_⟩
    intro v hv
    exact ⟨foldr_min_le_mem _ DTMAX v hv, foldr_max_ge_mem _ 0 v hv⟩
  · intro s2 hnull
    have hd2 : dsDateCols.flatMap (colDatesOf s2.cols s2.rows) = [] := by
      simpa [collectDates] using hnull
    unfold getDateRange
    rw [List.foldl_append]
    rw [show List.foldl
          (fun mm s => dsDateCols.foldl (drStep s.cols s.rows) mm)
          (List.foldl
            (fun mm s => dsDateCols.foldl (drStep s.cols s.rows) mm)
            (DTMAX, 0) sheets) [s2] =
        dsDateCols.foldl (drStep s2.cols s2.rows)
          (List.foldl
            (fun mm s => dsDateCols.foldl (drStep s.cols s.rows) mm)
            (DTMAX, 0) sheets) from rfl]
    rw [foldl_drStep, hd2]
    rfl

/-- Witness sheet for C8. -/
def c8sheet : Sheet :=
  { cols := [(lit "DATA", true), (lit "SITUACAO", false)]
    rows := [[(lit "DATA", Cell.dt (some 20250110))],
             [(lit "DATA", Cell.dt none)],
             [(lit "DATA", Cell.dt (some 20250115))]] }

/-- C8 witness at a concrete sheet. -/
theorem c8_witness :
    ((getDateRange [c8sheet]).1 ∈ collectDates [c8sheet] ∧
      (getDateRange [c8sheet]).2 ∈ collectDates [c8sheet] ∧
      ∀ v ∈ collectDates [c8sheet],
        (getDateRange [c8sheet]).1 ≤ v ∧ v ≤ (getDateRange [c8sheet]).2) ∧
    ∀ s2, collectDates [s2] = [] →
      getDateRange ([c8sheet] ++ [s2]) = getDateRange [c8sheet] :=
  c8_date_range [c8sheet] (by decide) (by decide)

/-! ## Claim C3: additivity of team queries -/

/-- Sheet for the C3 counterexample: a dated resolved row and no
EQUIPE-like column. -/
def c3sheet : Sheet :=
  { cols := [(lit "DATA", true), (lit "SITUACAO", false)]
    rows := [[(lit "DATA", Cell.dt (some 20250110)),
              (lit "SITUACAO", Cell.txt (lit "RESOLVIDO"))]] }

/-- C3 counterexample: over a sheet without an EQUIPE column, no team
label is observed for 2025-01-10, yet the sheet passes every team filter
unchanged, so the all-teams query counts one resolved row while the sum
over observed teams (none) plus the OTHERS and NO_RESPONSIBLE buckets
counts it twice.  Additivity fails as claimed. -/
theorem c3_counterexample :
    (dsGetDailyMetrics [c3sheet] 20250110 none).resolvidos = 1 ∧
    (dsGetDailyMetrics [c3sheet] 20250110 (some (lit "OUTROS"))).resolvidos +
      (dsGetDailyMetrics [c3sheet] 20250110
        (some (lit "SEM RESPONSÁVEL"))).resolvidos = 2 := by
  constructor
  · decide
  · decide

/-- Projection of a metrics sum is the sum of the projections, for every
additive projection. -/
theorem msum_proj (f : Metrics → Nat) (hf : ∀ a b, f (a.add b) = f a + f b)
    (hz : f Metrics.zero = 0) (l : List Metrics) :
    f (msum l) = (l.map f).sum := by
  induction l with
  | nil => simpa using hz
  | cons a t ih =>
    rw [msum_cons, hf, ih, List.map_cons, List.sum_cons]

/-- Python truthiness: a non-empty team string enables the filter. -/
theorem teamArg_some_of_ne (t : Str) (h : t ≠ []) :
    teamArg (some t) = some t := by
  cases t with
  | nil => exact absurd rfl h
  | cons c cs => rfl

/-- Splitting one keyword count over a duplicate-free family of
upper-stable team labels covering the equipe value of every date-matching
row: summing the team-filtered counts recovers the unfiltered count. -/
theorem countP_team_partition (ec : Str) (rows : List Row)
    (q D : Row → Bool) (ts : List Str)
    (hnd : ts.Nodup) (hup : ∀ t ∈ ts, upperStr t = t)
    (hcov : ∀ r ∈ rows, D r = true → upperStr (rowTxt r ec) ∈ ts) :
    (ts.map (fun t =>
      ((rows.filter (fun r => upperStr (rowTxt r ec) == upperStr t)).filter
        D).countP q)).sum = (rows.filter D).countP q := by
  have hEach : ∀ t ∈ ts,
      ((rows.filter (fun r =>
        upperStr (rowTxt r ec) == upperStr t)).filter D).countP q =
      rows.countP (fun r =>
        decide (upperStr (rowTxt r ec) = t) && (q r && D r)) := by
    intro t ht
    rw [List.countP_filter, List.countP_filter]
    apply List.countP_congr
    intro r hr
    rw [hup t ht]
    by_cases hv : upperStr (rowTxt r ec) = t
    · simp [hv]
    · simp [hv]
  rw [List.map_congr_left hEach,
    countP_partition rows (fun r => upperStr (rowTxt r ec))
      (fun r => q r && D r) ts hnd
      (fun r hr hP => hcov r hr (Bool.and_elim_right hP)),
    List.countP_filter]

/-- The team-partition property lifted to the whole per-sheet counter
record. -/
theorem dsCounts_partition (cols : List (Str × Bool)) (sc ec : Str)
    (rows : List Row) (D : Row → Bool) (ts : List Str)
    (hnd : ts.Nodup) (hup : ∀ t ∈ ts, upperStr t = t)
    (hcov : ∀ r ∈ rows, D r = true → upperStr (rowTxt r ec) ∈ ts) :
    dsCounts cols sc (rows.filter D) =
      msum (ts.map (fun t =>
        dsCounts cols sc ((rows.filter (fun r =>
          upperStr (rowTxt r ec) == upperStr t)).filter D))) := by
  have hplain : ∀ q : Row → Bool,
      (rows.filter D).countP q =
      (ts.map (fun t =>
        ((rows.filter (fun r =>
          upperStr (rowTxt r ec) == upperStr t)).filter D).countP q)).sum :=
    fun q => (countP_team_partition ec rows q D ts hnd hup hcov).symm
  have hz : ∀ ts2 : List Str, ((ts2.map (fun _ => 0)).sum : Nat) = 0 := by
    intro ts2
    induction ts2 with
    | nil => rfl
    | cons a t ih => simpa using ih
  cases hAR : hasCol cols ATIVO_RECEPTIVO with
  | true =>
    refine Metrics.ext ?_ ?_ ?_ ?_ ?_ ?_ ?_ ?_ ?_ ?_ ?_ ?_ <;>
      simp only [dsCounts, hAR, reduceIte]
    · rw [msum_proj Metrics.resolvidos (fun a b => rfl) rfl, List.map_map]
      exact hplain _
    · rw [msum_proj Metrics.pendenteAtivo (fun a b => rfl) rfl, List.map_map]
      exact hplain _
    · rw [msum_proj Metrics.pendenteReceptivo (fun a b => rfl) rfl,
        List.map_map]
      exact hplain _
    · rw [msum_proj Metrics.prioridade (fun a b => rfl) rfl, List.map_map]
      exact (hz ts).symm
    · rw [msum_proj Metrics.prioridadeTotal (fun a b => rfl) rfl,
        List.map_map]
      exact (hz ts).symm
    · rw [msum_proj Metrics.somaPrioridades (fun a b => rfl) rfl,
        List.map_map]
      exact (hz ts).symm
    · rw [msum_proj Metrics.analise (fun a b => rfl) rfl, List.map_map]
      exact hplain _
    · rw [msum_proj Metrics.analiseDia (fun a b => rfl) rfl, List.map_map]
      exact (hz ts).symm
    · rw [msum_proj Metrics.receptivo (fun a b => rfl) rfl, List.map_map]
      exact hplain _
    · rw [msum_proj Metrics.quitadoCliente (fun a b => rfl) rfl,
        List.map_map]
      exact (hz ts).symm
    · rw [msum_proj Metrics.quitado (fun a b => rfl) rfl, List.map_map]
      exact hplain _
    · rw [msum_proj Metrics.aprovados (fun a b => rfl) rfl, List.map_map]
      exact hplain _
  | false =>
    refine Metrics.ext ?_ ?_ ?_ ?_ ?_ ?_ ?_ ?_ ?_ ?_ ?_ ?_ <;>
      simp only [dsCounts, hAR, reduceIte]
    · rw [msum_proj Metrics.resolvidos (fun a b => rfl) rfl, List.map_map]
      exact hplain _
    · rw [msum_proj Metrics.pendenteAtivo (fun a b => rfl) rfl, List.map_map]
      exact (hz ts).symm
    · rw [msum_proj Metrics.pendenteReceptivo (fun a b => rfl) rfl,
        List.map_map]
      exact (hz ts).symm
    · rw [msum_proj Metrics.prioridade (fun a b => rfl) rfl, List.map_map]
      exact (hz ts).symm
    · rw [msum_proj Metrics.prioridadeTotal (fun a b => rfl) rfl,
        List.map_map]
      exact (hz ts).symm
    · rw [msum_proj Metrics.somaPrioridades (fun a b => rfl) rfl,
        List.map_map]
      exact (hz ts).symm
    · rw [msum_proj Metrics.analise (fun a b => rfl) rfl, List.map_map]
      exact hplain _
    · rw [msum_proj Metrics.analiseDia (fun a b => rfl) rfl, List.map_map]
      exact (hz ts).symm
    · rw [msum_proj Metrics.receptivo (fun a b => rfl) rfl, List.map_map]
      exact (hz ts).symm
    · rw [msum_proj Metrics.quitadoCliente (fun a b => rfl) rfl,
        List.map_map]
      exact (hz ts).symm
    · rw [msum_proj Metrics.quitado (fun a b => rfl) rfl, List.map_map]
      exact hplain _
    · rw [msum_proj Metrics.aprovados (fun a b => rfl) rfl, List.map_map]
      exact hplain _

/-- The guards of `dsSheetMetrics` are redundant once a situation column
exists: empty frames and empty filtered frames contribute the same zero
record that counting over no rows produces. -/
theorem dsSheetMetrics_eq_counts (s : Sheet) (d : Nat) (team : Option Str)
    (sc : Str) (hsc : getSituacaoColumn s.cols = some sc) :
    dsSheetMetrics s d team = dsCounts s.cols sc (dsMatchedRows s d team) := by
  have hnilCounts : dsCounts s.cols sc [] = Metrics.zero := by
    cases h : hasCol s.cols ATIVO_RECEPTIVO <;>
      simp [dsCounts, h, Metrics.zero]
  by_cases hr : s.rows.isEmpty = true
  · have hrows : s.rows = [] := List.isEmpty_iff.1 hr
    have hm : dsMatchedRows s d team = [] := by
      unfold dsMatchedRows dsTeamRows
      rw [hrows]
      cases teamArg team <;> cases findEquipeCol s.cols <;> simp
    rw [hm, hnilCounts]
    simp [dsSheetMetrics, hr]
  · by_cases hm : (dsMatchedRows s d team).isEmpty = true
    · have hm2 : dsMatchedRows s d team = [] := List.isEmpty_iff.1 hm
      rw [hm2, hnilCounts]
      simp [dsSheetMetrics, hr, hsc, hm2]
    · simp [dsSheetMetrics, hr, hsc, hm]

/-- C3 (corrected): additivity holds only over sheets that carry an
EQUIPE-like column.  For every family `ts` of distinct, non-empty,
upper-case team labels covering the (upper-cased) equipe value of every
date-matching row — in particular containing the observed team labels and
the OTHERS / NO_RESPONSIBLE bucket labels when they occur — the all-teams
query equals the metric-by-metric sum of the per-label queries.  Sheets
without an EQUIPE column break the claimed identity because they pass every
team filter unchanged (see the counterexample). -/
theorem c3_amended_additivity (sheets : List Sheet) (ts : List Str) (d : Nat)
    (hec : ∀ s ∈ sheets, (findEquipeCol s.cols).isSome = true)
    (hnd : ts.Nodup)
    (hup : ∀ t ∈ ts, upperStr t = t)
    (hne2 : ∀ t ∈ ts, t ≠ [])
    (hcov : ∀ s ∈ sheets, ∀ ec, findEquipeCol s.cols = some ec →
      ∀ r ∈ s.rows, dsDateMask s.cols d r = true →
        upperStr (rowTxt r ec) ∈ ts) :
    dsGetDailyMetrics sheets d none =
      msum (ts.map (fun t => dsGetDailyMetrics sheets d (some t))) := by
  have hper : ∀ s ∈ sheets,
      dsSheetMetrics s d none =
        msum (ts.map (fun t => dsSheetMetrics s d (some t))) := by
    intro s hs
    obtain ⟨ec, hecs⟩ := Option.isSome_iff_exists.1 (hec s hs)
    cases hsc : getSituacaoColumn s.cols with
    | none =>
      have hz : ∀ team, dsSheetMetrics s d team = Metrics.zero := by
        intro team
        by_cases hr : s.rows.isEmpty = true <;> simp [dsSheetMetrics, hr, hsc]
      rw [hz none,
        show ts.map (fun t => dsSheetMetrics s d (some t)) =
          ts.map (fun _ => Metrics.zero) from
            List.map_congr_left (fun t _ => hz (some t)),
        msum_map_zero]
    | some sc =>
      rw [dsSheetMetrics_eq_counts s d none sc hsc,
        show ts.map (fun t => dsSheetMetrics s d (some t)) =
          ts.map (fun t => dsCounts s.cols sc (dsMatchedRows s d (some t)))
          from List.map_congr_left
            (fun t _ => dsSheetMetrics_eq_counts s d (some t) sc hsc)]
      have hmt : ∀ t ∈ ts, dsMatchedRows s d (some t) =
          (s.rows.filter (fun r =>
            upperStr (rowTxt r ec) == upperStr t)).filter
            (dsDateMask s.cols d) := by
        intro t ht
        unfold dsMatchedRows dsTeamRows
        rw [teamArg_some_of_ne t (hne2 t ht), hecs]
      have hmn : dsMatchedRows s d none =
          s.rows.filter (dsDateMask s.cols d) := by
        unfold dsMatchedRows dsTeamRows
        cases hfe : findEquipeCol s.cols <;> rfl
      rw [hmn,
        show ts.map (fun t =>
            dsCounts s.cols sc (dsMatchedRows s d (some t))) =
          ts.map (fun t => dsCounts s.cols sc ((s.rows.filter (fun r =>
            upperStr (rowTxt r ec) == upperStr t)).filter
            (dsDateMask s.cols d))) from
          List.map_congr_left (fun t ht => by rw [hmt t ht])]
      exact dsCounts_partition s.cols sc ec s.rows (dsDateMask s.cols d) ts
        hnd hup (fun r hr hD => hcov s hs ec hecs r hr hD)
  calc dsGetDailyMetrics sheets d none
      = msum (sheets.map (fun s =>
          msum (ts.map (fun t => dsSheetMetrics s d (some t))))) := by
        unfold dsGetDailyMetrics
        exact congrArg msum (List.map_congr_left hper)
    _ = msum (ts.map (fun t =>
          msum (sheets.map (fun s => dsSheetMetrics s d (some t))))) :=
        msum_exchange sheets ts (fun s t => dsSheetMetrics s d (some t))
    _ = msum (ts.map (fun t => dsGetDailyMetrics sheets d (some t))) := rfl

/-- Witness sheet for the amended C3: an EQUIPE column and two teams. -/
def c3wsheet : Sheet :=
  { cols := [(lit "DATA", true), (lit "SITUACAO", false),
             (lit "EQUIPE", false)]
    rows := [[(lit "DATA", Cell.dt (some 20250110)),
              (lit "SITUACAO", Cell.txt (lit "RESOLVIDO")),
              (lit "EQUIPE", Cell.txt (lit "JULIO"))],
             [(lit "DATA", Cell.dt (some 20250110)),
              (lit "SITUACAO", Cell.txt (lit "PENDENTE")),
              (lit "EQUIPE", Cell.txt (lit "OUTROS"))]] }

/-- C3 witness at a concrete sheet with an EQUIPE column. -/
theorem c3_amended_witness :
    dsGetDailyMetrics [c3wsheet] 20250110 none =
      msum ([lit "JULIO", lit "OUTROS"].map
        (fun t => dsGetDailyMetrics [c3wsheet] 20250110 (some t))) :=
  c3_amended_additivity [c3wsheet] [lit "JULIO", lit "OUTROS"] 20250110
    (by decide) (by decide) (by decide) (by decide)
    (by
      intro s hs ec hecs r hr hD
      have hs2 : s = c3wsheet := by simpa using hs
      subst hs2
      have hec2 : ec = lit "EQUIPE" := by
        have h0 : findEquipeCol c3wsheet.cols = some (lit "EQUIPE") := by
          decide
        rw [h0] at hecs
        simpa using hecs.symm
      subst hec2
      revert hD
      revert hr
      revert r
      decide)

/-! ## Claim C6: chunk-size invariance of calculate_daily_metrics -/

theorem countP_eq_sum_map {α : Type} (p : α → Bool) (l : List α) :
    l.countP p = (l.map (fun a => if p a then 1 else 0)).sum := by
  induction l with
  | nil => rfl
  | cons a t ih =>
    simp only [List.countP_cons, List.map_cons, List.sum_cons, ih]
    omega

theorem sum_map_const_zero {α : Type} (l : List α) :
    (l.map (fun _ => (0 : Nat))).sum = 0 := by
  induction l with
  | nil => rfl
  | cons a t ih => simpa using ih

/-- The team filter of `calculate_daily_metrics` as a predicate: trivially
true when no team is selected or no EQUIPE-like column exists. -/
def ddTeamPred (cols : List (Str × Bool)) (selTeam : Option Str) :
    Row → Bool :=
  match teamArg selTeam, findEquipeCol cols with
  | some t, some ec => fun r => upperStr (rowTxt r ec) == upperStr t
  | _, _ => fun _ => true

theorem ddChunkT_eq (cols : List (Str × Bool)) (selTeam : Option Str)
    (chunk : List Row) :
    (match teamArg selTeam, findEquipeCol cols with
      | some t, some ec =>
        chunk.filter (fun r => upperStr (rowTxt r ec) == upperStr t)
      | _, _ => chunk) = chunk.filter (ddTeamPred cols selTeam) := by
  unfold ddTeamPred
  cases teamArg selTeam <;> cases findEquipeCol cols <;>
    simp [List.filter_true]

/-- Per-row contribution vector of `calculate_daily_metrics`: what one row
adds to each counter, as a function of the sheet-level column facts. -/
def ddRowVec (cols : List (Str × Bool)) (d : Nat) (selTeam : Option Str)
    (r : Row) : Metrics :=
  match getSituacaoColumn cols with
  | none => Metrics.zero
  | some sc =>
    let b := ddTeamPred cols selTeam r && ddDateMask cols d r
    let situ := trimStr (upperStr (rowTxt r sc))
    let hasAR := hasCol cols ATIVO_RECEPTIVO
    let ar := upperStr (rowTxt r ATIVO_RECEPTIVO)
    let dataOk := colIsDt cols (lit "DATA")
    { resolvidos := if b && anySub RESOLVED_PATS situ then 1 else 0
      analise := if b && anySub ANALISE_PATS situ then 1 else 0
      quitado := if b && anySub QUITADO_PATS situ then 1 else 0
      aprovados := if b && anySub APROVADO_PATS situ then 1 else 0
      pendenteAtivo :=
        if hasAR &&
            (b && (anySub PENDENTE_PATS situ && hasSub (lit "ATIVO") ar))
          then 1 else 0
      pendenteReceptivo :=
        if hasAR &&
            (b && (anySub PENDENTE_PATS situ && hasSub (lit "RECEPTIVO") ar))
          then 1 else 0
      receptivo :=
        if hasAR && (b && hasSub (lit "RECEPTIVO") ar) then 1 else 0
      analiseDia :=
        if dataOk &&
            (b && (anySub ANALISE_PATS situ && (rowDate r (lit "DATA") ==
              some d)))
          then 1 else 0
      prioridade := 0
      prioridadeTotal := 0
      somaPrioridades := 0
      quitadoCliente := 0 }

theorem filter_filter_countP (T D q : Row → Bool) (chunk : List Row) :
    ((chunk.filter T).filter D).countP q =
      (chunk.map (fun r => if (T r && D r) && q r then 1 else 0)).sum := by
  rw [List.countP_filter, List.countP_filter, countP_eq_sum_map]
  apply congrArg List.sum
  apply List.map_congr_left
  intro r hr
  cases hT : T r <;> cases hD : D r <;> cases hq : q r <;> simp

theorem ddCountsRec_nil (cols : List (Str × Bool)) (d : Nat) (sc : Str) :
    ddCountsRec cols d sc [] = Metrics.zero := by
  cases h1 : hasCol cols ATIVO_RECEPTIVO <;>
    cases h2 : colIsDt cols (lit "DATA") <;>
      simp [ddCountsRec, h1, h2, Metrics.zero]

theorem ddChunkContrib_unguarded (cols : List (Str × Bool)) (d : Nat)
    (selTeam : Option Str) (chunk : List Row) :
    ddChunkContrib cols d selTeam chunk =
      match getSituacaoColumn cols with
      | none => Metrics.zero
      | some sc => ddCountsRec cols d sc
          ((chunk.filter (ddTeamPred cols selTeam)).filter
            (ddDateMask cols d)) := by
  simp only [ddChunkContrib]
  rw [ddChunkT_eq]
  cases hca : (chunk.filter (ddTeamPred cols selTeam)).filter
      (ddDateMask cols d) with
  | nil =>
    cases getSituacaoColumn cols with
    | none => rfl
    | some sc => exact (ddCountsRec_nil cols d sc).symm
  | cons r rest => rfl

/-- One counter of the chunk computation, written as a row-wise sum. -/
theorem ddrec_field_plain (T D q : Row → Bool) (chunk : List Row)
    (F : Row → Metrics) (proj : Metrics → Nat)
    (hadd : ∀ a b, proj (a.add b) = proj a + proj b)
    (hz : proj Metrics.zero = 0)
    (hfield : ∀ r, proj (F r) = if (T r && D r) && q r then 1 else 0) :
    ((chunk.filter T).filter D).countP q = proj (msum (chunk.map F)) := by
  rw [msum_proj proj hadd hz, List.map_map, filter_filter_countP]
  exact congrArg List.sum (List.map_congr_left (fun r _ => (hfield r).symm))

/-- A counter that is never incremented, written as a row-wise sum. -/
theorem ddrec_field_zero (chunk : List Row) (F : Row → Metrics)
    (proj : Metrics → Nat)
    (hadd : ∀ a b, proj (a.add b) = proj a + proj b)
    (hz : proj Metrics.zero = 0)
    (hfield : ∀ r, proj (F r) = 0) :
    0 = proj (msum (chunk.map F)) := by
  rw [msum_proj proj hadd hz, List.map_map]
  refine ((sum_map_const_zero chunk).symm.trans ?_)
  exact congrArg List.sum (List.map_congr_left (fun r _ => (hfield r).symm))

/-- The chunk contribution equals the sum of the per-row vectors. -/
theorem ddChunkContrib_eq_msum (cols : List (Str × Bool)) (d : Nat)
    (selTeam : Option Str) (chunk : List Row) :
    ddChunkContrib cols d selTeam chunk =
      msum (chunk.map (ddRowVec cols d selTeam)) := by
  rw [ddChunkContrib_unguarded]
  cases hsc : getSituacaoColumn cols with
  | none =>
    rw [show chunk.map (ddRowVec cols d selTeam) =
        chunk.map (fun _ => Metrics.zero) from
      List.map_congr_left (fun r _ => by simp [ddRowVec, hsc]), msum_map_zero]
  | some sc =>
    refine Metrics.ext ?_ ?_ ?_ ?_ ?_ ?_ ?_ ?_ ?_ ?_ ?_ ?_
    · exact ddrec_field_plain _ _ _ chunk _ Metrics.resolvidos
        (fun a b => rfl) rfl
        (fun r => by simp only [ddRowVec, hsc])
    · cases hAR : hasCol cols ATIVO_RECEPTIVO with
      | true =>
        simp only [ddCountsRec, hAR, reduceIte]
        exact ddrec_field_plain _ _ _ chunk _ Metrics.pendenteAtivo
          (fun a b => rfl) rfl
          (fun r => by simp only [ddRowVec, hsc, hAR, Bool.true_and])
      | false =>
        simp only [ddCountsRec, hAR, reduceIte]
        exact ddrec_field_zero chunk _ Metrics.pendenteAtivo
          (fun a b => rfl) rfl
          (fun r => by simp [ddRowVec, hsc, hAR])
    · cases hAR : hasCol cols ATIVO_RECEPTIVO with
      | true =>
        simp only [ddCountsRec, hAR, reduceIte]
        exact ddrec_field_plain _ _ _ chunk _ Metrics.pendenteReceptivo
          (fun a b => rfl) rfl
          (fun r => by simp only [ddRowVec, hsc, hAR, Bool.true_and])
      | false =>
        simp only [ddCountsRec, hAR, reduceIte]
        exact ddrec_field_zero chunk _ Metrics.pendenteReceptivo
          (fun a b => rfl) rfl
          (fun r => by simp [ddRowVec, hsc, hAR])
    · exact ddrec_field_zero chunk _ Metrics.prioridade
        (fun a b => rfl) rfl (fun r => by simp only [ddRowVec, hsc])
    · exact ddrec_field_zero chunk _ Metrics.prioridadeTotal
        (fun a b => rfl) rfl (fun r => by simp only [ddRowVec, hsc])
    · exact ddrec_field_zero chunk _ Metrics.somaPrioridades
        (fun a b => rfl) rfl (fun r => by simp only [ddRowVec, hsc])
    · exact ddrec_field_plain _ _ _ chunk _ Metrics.analise
        (fun a b => rfl) rfl (fun r => by simp only [ddRowVec, hsc])
    · cases hDO : colIsDt cols (lit "DATA") with
      | true =>
        simp only [ddCountsRec, hDO, reduceIte]
        exact ddrec_field_plain _ _ _ chunk _ Metrics.analiseDia
          (fun a b => rfl) rfl
          (fun r => by simp only [ddRowVec, hsc, hDO, Bool.true_and])
      | false =>
        simp only [ddCountsRec, hDO, reduceIte]
        exact ddrec_field_zero chunk _ Metrics.analiseDia
          (fun a b => rfl) rfl
          (fun r => by simp [ddRowVec, hsc, hDO])
    · cases hAR : hasCol cols ATIVO_RECEPTIVO with
      | true =>
        simp only [ddCountsRec, hAR, reduceIte]
        exact ddrec_field_plain _ _ _ chunk _ Metrics.receptivo
          (fun a b => rfl) rfl
          (fun r => by simp only [ddRowVec, hsc, hAR, Bool.true_and])
      | false =>
        simp only [ddCountsRec, hAR, reduceIte]
        exact ddrec_field_zero chunk _ Metrics.receptivo
          (fun a b => rfl) rfl
          (fun r => by simp [ddRowVec, hsc, hAR])
    · exact ddrec_field_zero chunk _ Metrics.quitadoCliente
        (fun a b => rfl) rfl (fun r => by simp only [ddRowVec, hsc])
    · exact ddrec_field_plain _ _ _ chunk _ Metrics.quitado
        (fun a b => rfl) rfl (fun r => by simp only [ddRowVec, hsc])
    · exact ddrec_field_plain _ _ _ chunk _ Metrics.aprovados
        (fun a b => rfl) rfl (fun r => by simp only [ddRowVec, hsc])

/-- Concatenating the chunks restores the row sequence. -/
theorem chunksOf_flatten {α : Type} (n : Nat) (l : List α) :
    (chunksOf n l).flatten = l := by
  have H : ∀ (m : Nat) (l2 : List α), l2.length ≤ m →
      (chunksOf n l2).flatten = l2 := by
    intro m
    induction m with
    | zero =>
      intro l2 hl
      cases l2 with
      | nil =>
        rw [show chunksOf n ([] : List α) = [] from by rw [chunksOf]]
        rfl
      | cons a t => simp at hl
    | succ m ih =>
      intro l2 hl
      cases l2 with
      | nil =>
        rw [show chunksOf n ([] : List α) = [] from by rw [chunksOf]]
        rfl
      | cons a t =>
        rw [show chunksOf n (a :: t) =
            (a :: t.take (n - 1)) :: chunksOf n (t.drop (n - 1)) from by
          rw [chunksOf]]
        rw [List.flatten_cons]
        rw [ih (t.drop (n - 1)) (by
          rw [List.length_drop]
          simp only [List.length_cons] at hl
          omega)]
        rw [List.cons_append, List.take_append_drop]
  exact H l.length l le_rfl

/-- Summing the per-chunk sums equals summing over the concatenation. -/
theorem msum_map_flatten {α : Type} (f : α → Metrics) (ll : List (List α)) :
    msum (ll.map (fun c => msum (c.map f))) = msum (ll.flatten.map f) := by
  induction ll with
  | nil => rfl
  | cons c rest ih =>
    rw [List.map_cons, msum_cons, ih, List.flatten_cons, List.map_append,
      msum_append]

/-- The chunked sheet computation equals the whole-table row sum, for
every chunk size. -/
theorem ddSheetMetrics_eq_rows (s : Sheet) (d : Nat) (selTeam : Option Str)
    (chunkSize : Nat) :
    ddSheetMetrics s d selTeam chunkSize =
      msum (s.rows.map (ddRowVec s.cols d selTeam)) := by
  by_cases hr : s.rows.isEmpty = true
  · have h0 : ddSheetMetrics s d selTeam chunkSize = Metrics.zero := by
      simp [ddSheetMetrics, hr]
    rw [h0, List.isEmpty_iff.1 hr]
    rfl
  · unfold ddSheetMetrics
    rw [if_neg hr,
      show (chunksOf chunkSize s.rows).map (ddChunkContrib s.cols d selTeam) =
        (chunksOf chunkSize s.rows).map (fun c =>
          msum (c.map (ddRowVec s.cols d selTeam))) from
      List.map_congr_left (fun c _ =>
        ddChunkContrib_eq_msum s.cols d selTeam c),
      msum_map_flatten, chunksOf_flatten]

/-- C6 (confirmed): chunk-size invariance.  Computing the daily metrics
with batches of size 1 yields exactly the same counters as batches of
size 10,000, for every loaded sheet set, date and team selection — both
equal the whole-table row sum. -/
theorem c6_chunk_invariance (sheets : List Sheet) (d : Nat)
    (selTeam : Option Str) :
    calculateDailyMetrics sheets d selTeam 1 =
      calculateDailyMetrics sheets d selTeam 10000 := by
  unfold calculateDailyMetrics
  exact congrArg msum (List.map_congr_left (fun s _ =>
    (ddSheetMetrics_eq_rows s d selTeam 1).trans
      (ddSheetMetrics_eq_rows s d selTeam 10000).symm))
